import Mathlib

/-!
Shallow embedding of the discovery-pipeline core of the repository:

* `scripts/vendor/last30days/xai_x.py` — citation extraction and URL repair
  (`_extract_citation_urls`, `_extract_output_text`, `_fix_urls_from_citations`,
  `parse_x_response`);
* `scripts/lib/vault_v2.py` (and the identical logic in
  `daily-research/scripts/lib/vault.py`) — title extraction and fuzzy title
  dedup (`extract_titles_from_text`, `title_is_seen`);
* `scripts/run.py` — the quality-filter pipeline (`_is_spam`,
  `_classify_content`, `apply_quality_filters`), the per-topic scan
  (`run_topic_scan`) and the cross-batch seen-URL accumulation of `main`.

Python dicts with known key sets are modelled as structures; dynamically
typed JSON values as small inductive types carrying exactly the variants the
code distinguishes with `isinstance`; mutation as functional update; floats
as exact rationals; `re.search` over configured spam patterns as an abstract
matcher argument.  Where the orchestration calls vendor modules that are not
part of the sources (`normalize`, `score`, `dedupe`, `openai_reddit`), the
outcome of the corresponding `try:` block is taken as an input of type
`Except`, which is the shallow embedding of "this block either returned a
list or raised".
-/

/-- Substring test on character lists: does `hay` start with `needle`? -/
def listHasPre : List Char → List Char → Bool
  | _, [] => true
  | [], _ :: _ => false
  | h :: hs, n :: ns => h = n && listHasPre hs ns

/-- Substring test on character lists: does `needle` occur inside `hay`?
    Models Python's `needle in hay` on strings. -/
def listHasSub : List Char → List Char → Bool
  | [], needle => needle.isEmpty
  | hay@(_ :: rest), needle => listHasPre hay needle || listHasSub rest needle

/-- `strContains hay needle` models Python `needle in hay`. -/
def strContains (hay needle : String) : Bool :=
  listHasSub hay.toList needle.toList

/-- A character matched by the regex class `\w` (ASCII fragment). -/
def isWordChar (c : Char) : Bool :=
  c.isAlphanum || c = '_'

/-- Python `str.lower()` (ASCII fragment), the logical definition of
    `String.toLower`: lowercase every character. -/
def lowerStr (s : String) : String :=
  String.mk (s.data.map Char.toLower)

/-- Python `str.strip()`: drop whitespace from both ends. -/
def trimStr (s : String) : String :=
  String.mk
    (((s.data.dropWhile Char.isWhitespace).reverse.dropWhile
      Char.isWhitespace).reverse)

/-- Python `s[:n]` on strings. -/
def takeStr (n : Nat) (s : String) : String :=
  String.mk (s.data.take n)

/-- Splitting a character list at every separator, keeping empty segments
    (the behaviour of `String.split`). -/
def splitChars (p : Char → Bool) : List Char → List (List Char)
  | [] => [[]]
  | c :: rest =>
    if p c then [] :: splitChars p rest
    else
      match splitChars p rest with
      | seg :: segs => (c :: seg) :: segs
      | [] => [[c]]

/-- The whitespace-separated words of a string: Python `str.split()` with no
    argument drops the empty fragments. -/
def wordsOf (s : String) : List String :=
  ((splitChars (·.isWhitespace) s.data).map String.mk).filter (· ≠ "")

/-- `str.split("\n")` / `String.splitOn "\n"`: the lines of a string. -/
def linesOf (s : String) : List String :=
  (splitChars (· = '\n') s.data).map String.mk

namespace XaiX

/-- Author-handle extraction from a URL: models
    `re.match(r'https://x\.com/(\w+)/status/\d+', url)` returning `group(1)`.
    `re.match` anchors at the start only; the greedy `\w+` run must be
    followed immediately by `/status/` and at least one digit. -/
def handleOf (url : String) : Option String :=
  if listHasPre url.toList "https://x.com/".toList then
    let rest := url.toList.drop 14
    let h := rest.takeWhile isWordChar
    let rest2 := rest.drop h.length
    if h ≠ [] && listHasPre rest2 "/status/".toList &&
        (match rest2.drop 8 with
         | c :: _ => c.isDigit
         | [] => false) then
      some (String.mk h)
    else none
  else none

/-- Models `item.get("author_handle", "").lower().lstrip("@")`. -/
def normAuthor (a : String) : String :=
  String.mk ((lowerStr a).data.dropWhile (· = '@'))

/-- Engagement record after cleaning in `parse_x_response`
    (`int(x) if x else None` per field, so a raw `0` becomes `none`). -/
structure CleanEng where
  likes : Option Int
  reposts : Option Int
  replies : Option Int
  quotes : Option Int
deriving DecidableEq, Repr, Inhabited

/-- A cleaned X item, the dict shape built by `parse_x_response` and the
    shape consumed by `_fix_urls_from_citations` (which reads `url` and
    `author_handle` and writes `url`). -/
structure CleanItem where
  id : String
  text : String
  url : String
  author_handle : String
  date : Option String
  is_reply : Bool
  engagement : Option CleanEng
  why_relevant : String
  relevance : ℚ
deriving DecidableEq, Repr

instance : Inhabited CleanItem :=
  ⟨⟨"", "", "", "", none, false, none, "", 0⟩⟩

/-- The per-author citation pools of `_fix_urls_from_citations`
    (`author_urls: Dict[str, List[str]]`), as an association list in
    insertion order.  `setdefault(handle, []).append(url)`. -/
def poolInsert : List (String × List String) → String → String →
    List (String × List String)
  | [], h, u => [(h, [u])]
  | (k, l) :: rest, h, u =>
    if k = h then (k, l ++ [u]) :: rest else (k, l) :: poolInsert rest h u

/-- Lookup in the pools; a missing key reads as the empty queue (the code
    always guards reads with `author in author_urls`, and an absent key and
    an empty queue behave identically under those guards). -/
def poolGet : List (String × List String) → String → List String
  | [], _ => []
  | (k, l) :: rest, h => if k = h then l else poolGet rest h

/-- In-place mutation of one author's queue (`author_urls[author].remove(…)`
    / `.pop(0)`): apply `f` to the value stored under key `h`. -/
def poolUpdate : List (String × List String) → String →
    (List String → List String) → List (String × List String)
  | [], _, _ => []
  | (k, l) :: rest, h, f =>
    (if k = h then (k, f l) else (k, l)) :: poolUpdate rest h f

/-- `list.remove(x)`: drop the first occurrence. -/
def removeFirst : List String → String → List String
  | [], _ => []
  | x :: xs, u => if x = u then xs else x :: removeFirst xs u

/-- One step of building `author_urls`: insert a citation URL into the pool
    of its embedded lowered handle, skipping unparseable URLs and the
    handle-less `i`. -/
def initStep (ps : List (String × List String)) (u : String) :
    List (String × List String) :=
  match handleOf u with
  | some hd => if lowerStr hd ≠ "i" then poolInsert ps (lowerStr hd) u else ps
  | none => ps

/-- Builds `author_urls` from the citation list. -/
def initPools (citations : List String) : List (String × List String) :=
  citations.foldl initStep []

/-- The anonymous `x.com/i/status/*` fallback pool. -/
def anonPool (citations : List String) : List String :=
  citations.filter fun u => strContains u "/i/status/"

/-- Which branch of `_fix_urls_from_citations` handled an item. -/
inductive FixAction
  | exactKept
  | handleKept
  | authorRepaired
  | anonRepaired
  | unverified
deriving DecidableEq, Repr

/-- Mutable state of the `for item in items` loop of
    `_fix_urls_from_citations`: the per-author queues and the index into the
    anonymous pool. -/
structure FixState where
  pools : List (String × List String)
  anonIdx : Nat
deriving DecidableEq, Repr

/-- Case 3 (and its anonymous / unverified fall-throughs) of
    `_fix_urls_from_citations`: handle mismatch or malformed URL — pop the
    oldest citation of the claimed author (`author_urls[author].pop(0)`),
    else take the next anonymous `x.com/i/status/*` URL, else leave the item
    unverified. -/
def fixCase3 (anonUrls : List String) (st : FixState) (item : CleanItem)
    (author : String) : CleanItem × FixAction × FixState :=
  match (if author ≠ "" then poolGet st.pools author else []) with
  | realUrl :: _ =>
    ({ item with url := realUrl }, FixAction.authorRepaired,
     { st with pools := poolUpdate st.pools author List.tail })
  | [] =>
    if anonUrls ≠ [] ∧ st.anonIdx < anonUrls.length then
      ({ item with url := anonUrls.getD st.anonIdx "" },
       FixAction.anonRepaired, { st with anonIdx := st.anonIdx + 1 })
    else (item, FixAction.unverified, st)

/-- One iteration of the loop body of `_fix_urls_from_citations`. -/
def fixStep (citations anonUrls : List String) (st : FixState)
    (item : CleanItem) : CleanItem × FixAction × FixState :=
  let modelUrl := item.url
  let author := normAuthor item.author_handle
  if modelUrl ∈ citations then
    -- Case 1: model URL is a verified citation — keep, remove from pool
    let st' :=
      if author ≠ "" ∧ modelUrl ∈ poolGet st.pools author then
        { st with pools := poolUpdate st.pools author (removeFirst · modelUrl) }
      else st
    (item, FixAction.exactKept, st')
  else
    match handleOf modelUrl with
    | some h =>
      -- Case 2: the URL's embedded handle matches the claimed author — keep
      if lowerStr h = author ∧ author ≠ "" then (item, FixAction.handleKept, st)
      else fixCase3 anonUrls st item author
    | none => fixCase3 anonUrls st item author

/-- The item loop, also reporting which branch handled each item. -/
def fixGo (citations anonUrls : List String) :
    FixState → List CleanItem → List (CleanItem × FixAction)
  | _, [] => []
  | st, i :: rest =>
    let r := fixStep citations anonUrls st i
    (r.1, r.2.1) :: fixGo citations anonUrls r.2.2 rest

/-- State left by the loop after a list of items. -/
def fixStateAfter (citations anonUrls : List String) :
    FixState → List CleanItem → FixState
  | st, [] => st
  | st, i :: rest =>
    fixStateAfter citations anonUrls (fixStep citations anonUrls st i).2.2 rest

/-- `_fix_urls_from_citations`, tagged with the branch taken per item. -/
def fixUrlsTagged (items : List CleanItem) (citations : List String) :
    List (CleanItem × FixAction) :=
  fixGo citations (anonPool citations) ⟨initPools citations, 0⟩ items

/-- `_fix_urls_from_citations(items, citation_urls)`.  Returns the items
    unchanged when the citation list is empty (`if not citation_urls`). -/
def fix_urls_from_citations (items : List CleanItem)
    (citations : List String) : List CleanItem :=
  if citations = [] then items
  else (fixUrlsTagged items citations).map Prod.fst

/-! ### The xAI response, as far as `parse_x_response` inspects it -/

/-- An entry of the top-level `citations` list: a string, a dict (read via
    `cit.get("url", "")`), or anything else (skipped). -/
inductive CitEntry
  | str (s : String)
  | obj (url : String)
  | other
deriving DecidableEq, Repr

/-- An annotation dict carries a `type` field (never inspected by
    `_extract_citation_urls`) and a `url` read via `ann.get("url", "")`. -/
structure AnnDict where
  atype : String
  url : String
deriving DecidableEq, Repr

/-- An entry of a content item's `annotations` list. -/
inductive AnnEntry
  | dict (a : AnnDict)
  | other
deriving DecidableEq, Repr

/-- An entry of a message's `content` list: a dict with a `type`, a `text`
    (read via `.get("text", "")`) and an `annotations` list, or a non-dict. -/
inductive ContentEntry
  | dict (ctype : String) (text : String) (annotations : List AnnEntry)
  | other
deriving DecidableEq, Repr

/-- An entry of the `output` list: a dict with a `type`, a `content` list and
    an optional `text` key, a bare string, or anything else. -/
inductive OutEntry
  | dict (otype : String) (content : List ContentEntry) (textField : Option String)
  | str (s : String)
  | other
deriving DecidableEq, Repr

/-- The `output` field itself: missing, a string, a list, or another type. -/
inductive OutputField
  | missing
  | str (s : String)
  | list (items : List OutEntry)
  | other
deriving DecidableEq, Repr

/-- The `error` field: absent, a string, a dict (non-empty dicts are truthy;
    `message` read via `.get("message", …)`), an empty dict, or JSON null. -/
inductive ErrField
  | str (s : String)
  | objNonempty (message : Option String)
  | objEmpty
  | nullv
deriving DecidableEq, Repr

/-- A choice of the legacy `choices` list: `some c` is a choice whose dict
    has a `message` key with `content` `c`; `none` is a choice without one. -/
structure Resp where
  error : Option ErrField
  citations : List CitEntry
  output : OutputField
  choices : List (Option String)
deriving DecidableEq, Repr

/-- Python truthiness of the `error` field (`"error" in response and
    response["error"]`). -/
def truthyErr : Option ErrField → Bool
  | none => false
  | some (ErrField.str s) => s ≠ ""
  | some (ErrField.objNonempty _) => true
  | some ErrField.objEmpty => false
  | some ErrField.nullv => false

/-- The `_add` helper of `_extract_citation_urls`: append if non-empty and
    not already seen (dedup preserving first-occurrence order). -/
def addUrl (acc : List String) (u : String) : List String :=
  if u = "" ∨ u ∈ acc then acc else acc ++ [u]

/-- Folding `_add` over the top-level `citations` list. -/
def addCitations (acc : List String) : List CitEntry → List String
  | [] => acc
  | CitEntry.str s :: rest =>
    addCitations (if strContains s "/status/" then addUrl acc s else acc) rest
  | CitEntry.obj u :: rest =>
    addCitations (if strContains u "/status/" then addUrl acc u else acc) rest
  | CitEntry.other :: rest => addCitations acc rest

/-- Folding `_add` over one annotation list. -/
def addAnnList (acc : List String) : List AnnEntry → List String
  | [] => acc
  | AnnEntry.dict a :: rest =>
    addAnnList (if strContains a.url "/status/" then addUrl acc a.url else acc) rest
  | AnnEntry.other :: rest => addAnnList acc rest

/-- Folding `_add` over a message's content list. -/
def addContentList (acc : List String) : List ContentEntry → List String
  | [] => acc
  | ContentEntry.dict _ _ anns :: rest => addContentList (addAnnList acc anns) rest
  | ContentEntry.other :: rest => addContentList acc rest

/-- Folding `_add` over the `output` list (only dicts of type `message`). -/
def addOutput (acc : List String) : List OutEntry → List String
  | [] => acc
  | OutEntry.dict otype content _ :: rest =>
    addOutput (if otype = "message" then addContentList acc content else acc) rest
  | OutEntry.str _ :: rest => addOutput acc rest
  | OutEntry.other :: rest => addOutput acc rest

/-- `_extract_citation_urls(response)`: URLs from the top-level `citations`
    list and from annotations of `message` output items — never from the
    model's output text. -/
def extract_citation_urls (r : Resp) : List String :=
  let acc := addCitations [] r.citations
  match r.output with
  | OutputField.list items => addOutput acc items
  | _ => acc

/-- The URL a `citations` entry carries, if any (spec-side view). -/
def citEntryUrl : CitEntry → Option String
  | CitEntry.str s => some s
  | CitEntry.obj u => some u
  | CitEntry.other => none

/-- All URL strings present in the top-level `citations` list (spec-side
    view, used to state where extracted URLs may come from). -/
def topCitationUrls (r : Resp) : List String :=
  r.citations.filterMap citEntryUrl

/-- The URL a dict annotation carries (spec-side view, any `type`). -/
def annEntryUrl : AnnEntry → Option String
  | AnnEntry.dict a => some a.url
  | AnnEntry.other => none

/-- The URL a dict annotation of `type` `"url_citation"` carries. -/
def annEntryUrlCitation : AnnEntry → Option String
  | AnnEntry.dict a => if a.atype = "url_citation" then some a.url else none
  | AnnEntry.other => none

/-- The annotation URLs of one content entry. -/
def contentAnnUrls : ContentEntry → List String
  | ContentEntry.dict _ _ anns => anns.filterMap annEntryUrl
  | ContentEntry.other => []

/-- The annotation URLs of one content entry, `url_citation` type only. -/
def contentUrlCitationUrls : ContentEntry → List String
  | ContentEntry.dict _ _ anns => anns.filterMap annEntryUrlCitation
  | ContentEntry.other => []

/-- The annotation URLs of one `output` entry (only `message` dicts). -/
def outEntryAnnUrls : OutEntry → List String
  | OutEntry.dict otype content _ =>
    if otype = "message" then (content.map contentAnnUrls).flatten else []
  | _ => []

/-- As `outEntryAnnUrls`, `url_citation` type only. -/
def outEntryUrlCitationUrls : OutEntry → List String
  | OutEntry.dict otype content _ =>
    if otype = "message" then (content.map contentUrlCitationUrls).flatten
    else []
  | _ => []

/-- All URLs of dict annotations of `message` output items (any `type`). -/
def annotationUrls (r : Resp) : List String :=
  match r.output with
  | OutputField.list items => (items.map outEntryAnnUrls).flatten
  | _ => []

/-- As `annotationUrls` but restricted to annotations whose `type` field is
    `"url_citation"` (what the specification asserts; the extraction code
    never looks at the `type` field). -/
def urlCitationAnnotationUrls (r : Resp) : List String :=
  match r.output with
  | OutputField.list items => (items.map outEntryUrlCitationUrls).flatten
  | _ => []

/-- Erase the text of one content entry, keeping type and annotations. -/
def stripContentEntry : ContentEntry → ContentEntry
  | ContentEntry.dict ctype _ anns => ContentEntry.dict ctype "" anns
  | ContentEntry.other => ContentEntry.other

/-- Erase every text fragment of one `output` entry. -/
def stripOutEntry : OutEntry → OutEntry
  | OutEntry.dict otype content textField =>
    OutEntry.dict otype (content.map stripContentEntry)
      (textField.map fun _ => "")
  | OutEntry.str _ => OutEntry.str ""
  | OutEntry.other => OutEntry.other

/-- Erase every fragment of model-generated output text in a response,
    keeping all structure, citations and annotations.  Two responses that
    differ only in the model's output text have equal `stripTexts`. -/
def stripTexts (r : Resp) : Resp :=
  { r with
    output :=
      match r.output with
      | OutputField.list items => OutputField.list (items.map stripOutEntry)
      | OutputField.str _ => OutputField.str ""
      | f => f,
    choices := r.choices.map fun c => c.map fun _ => "" }

/-! ### `_extract_output_text` and `parse_x_response` -/

/-- Scan a message's content for the first dict of type `output_text` and
    return its text. -/
def msgText : List ContentEntry → String
  | [] => ""
  | ContentEntry.dict ctype t _ :: rest =>
    if ctype = "output_text" then t else msgText rest
  | ContentEntry.other :: rest => msgText rest

/-- The per-entry candidate text in `_extract_output_text`'s loop. -/
def outEntryText : OutEntry → String
  | OutEntry.dict otype content textField =>
    if otype = "message" then msgText content
    else match textField with
      | some t => t
      | none => ""
  | OutEntry.str s => s
  | OutEntry.other => ""

/-- The loop over `output` items: stop at the first non-empty text. -/
def firstOutText : List OutEntry → String
  | [] => ""
  | e :: rest =>
    let t := outEntryText e
    if t ≠ "" then t else firstOutText rest

/-- The `choices` fallback: first choice bearing a `message` key. -/
def choicesText : List (Option String) → String
  | [] => ""
  | some c :: _ => c
  | none :: rest => choicesText rest

/-- `_extract_output_text(response)`.  A string-typed `output` is returned
    immediately (even when empty); otherwise the `choices` fallback fires
    only when the `output` scan produced the empty string. -/
def extract_output_text (r : Resp) : String :=
  match r.output with
  | OutputField.str s => s
  | OutputField.list items =>
    let t := firstOutText items
    if t = "" then choicesText r.choices else t
  | _ => choicesText r.choices

/-- Raw engagement sub-dict as found in the model's JSON (a field is `none`
    when the key is absent; Python reads `eng_raw.get(k, 0)` but then tests
    truthiness, so absent and `0` both clean to `none`). -/
structure RawEng where
  likes : Option Int
  reposts : Option Int
  replies : Option Int
  quotes : Option Int
deriving DecidableEq, Repr

/-- A raw item dict parsed out of the model's JSON `items` list. -/
structure RawXItem where
  url : String
  text : String
  author_handle : String
  date : Option String
  is_reply : Bool
  engagement : Option RawEng
  why_relevant : String
  relevance : ℚ
deriving DecidableEq, Repr

/-- An entry of the model's `items` list (non-dict entries are skipped). -/
inductive RawEntry
  | dict (item : RawXItem)
  | other
deriving DecidableEq, Repr

/-- `^\d{4}-\d{2}-\d{2}` over a full 10-character candidate. -/
def dateCore : List Char → Bool
  | [a, b, c, d, '-', e, f, '-', g, h] =>
    a.isDigit && b.isDigit && c.isDigit && d.isDigit &&
    e.isDigit && f.isDigit && g.isDigit && h.isDigit
  | _ => false

/-- `re.match(r'^\d{4}-\d{2}-\d{2}$', s)`: the `$` also matches just before
    a single final newline. -/
def matchDateRe (s : String) : Bool :=
  dateCore s.toList ||
    (match s.toList.getLast? with
     | some '\n' => dateCore s.toList.dropLast
     | _ => false)

/-- `int(x) if x else None` applied to one raw engagement field. -/
def cleanEngField : Option Int → Option Int
  | none => none
  | some v => if v ≠ 0 then some v else none

/-- The validation/cleaning loop body of `parse_x_response` for raw item at
    0-based position `i`; `none` when the entry is skipped. -/
def cleanOne (i : Nat) : RawEntry → Option CleanItem
  | RawEntry.other => none
  | RawEntry.dict item =>
    if item.url = "" then none
    else
      let engagement :=
        match item.engagement with
        | none => none
        | some e => some (CleanEng.mk (cleanEngField e.likes)
            (cleanEngField e.reposts) (cleanEngField e.replies)
            (cleanEngField e.quotes))
      let date0 := item.date
      let date :=
        match date0 with
        | none => none
        | some s => if s ≠ "" ∧ ¬matchDateRe s then none else some s
      some
        { id := "X" ++ toString (i + 1)
          text := takeStr 500 (trimStr item.text)
          url := item.url
          author_handle :=
            String.mk ((trimStr item.author_handle).data.dropWhile (· = '@'))
          date := date
          is_reply := item.is_reply
          engagement := engagement
          why_relevant := trimStr item.why_relevant
          relevance := min 1 (max 0 item.relevance) }

/-- The full validation/cleaning loop (`enumerate` counts skipped raw
    entries too, matching the `X{i+1}` ids). -/
def cleanAll (items : List RawEntry) : List CleanItem :=
  (items.enum.map fun p => cleanOne p.1 p.2).reduceOption

/-- `parse_x_response(response)`.  The extraction of the raw `items` list
    from the model's output text (`re.search` for a JSON object plus
    `json.loads`, both library code) is abstracted as the function
    `jsonItems`; everything else follows the source.  A truthy `error`
    yields `[]` before anything is parsed. -/
def parse_x_response (jsonItems : String → List RawEntry) (r : Resp) :
    List CleanItem :=
  if truthyErr r.error then []
  else
    let citation_urls := extract_citation_urls r
    let output_text := extract_output_text r
    if output_text = "" then []
    else
      let clean_items := cleanAll (jsonItems output_text)
      if citation_urls ≠ [] then fix_urls_from_citations clean_items citation_urls
      else clean_items

end XaiX

namespace Vault

/-- `set(s.split())`: the set of whitespace-separated words of a string
    (Python `str.split()` with no argument drops empty fragments). -/
def wordSet (s : String) : Finset String :=
  (wordsOf s).toFinset

/-- `title_is_seen(title, seen_titles, threshold=0.8)` from
    `lib/vault_v2.py` (identical in `daily-research/scripts/lib/vault.py`):
    empty input or empty seen-set short-circuits to `False`; fewer than 3
    words falls back to exact membership of the lowercased title; otherwise
    any seen entry with word-overlap ratio
    `|intersection| / max(|A|, |B|) >= threshold` counts as seen (entries
    with an empty word set are skipped). -/
def title_is_seen (title : String) (seen_titles : List String)
    (threshold : ℚ) : Bool :=
  if title = "" ∨ seen_titles = [] then false
  else
    let title_words := wordSet (lowerStr title)
    if title_words.card < 3 then decide (lowerStr title ∈ seen_titles)
    else
      seen_titles.any fun seen =>
        let seen_words := wordSet seen
        if seen_words = ∅ then false
        else
          decide ((((title_words ∩ seen_words).card : ℚ) /
            (max title_words.card seen_words.card : ℚ)) ≥ threshold)

/-! ### Title extraction (`extract_titles_from_text` / `extract_titles_from_file`)

The two regexes are embedded as character-level scanners:

* list-item links `[-*]\s*(?:\[[ x]\]\s*)?\[([^\]]+)\(` via `re.finditer`
  over the whole text (non-overlapping, left to right; on failure the scan
  resumes one character after the bullet);
* headings `^#{2,4}\s+(.+)$` with `re.MULTILINE`, i.e. per line.
-/

/-- `\s*`. -/
def skipWs (cs : List Char) : List Char :=
  cs.dropWhile (·.isWhitespace)

/-- `\[[ x]\]`: a checkbox, returning the remainder. -/
def matchCheckbox : List Char → Option (List Char)
  | '[' :: c :: ']' :: rest => if c = ' ' ∨ c = 'x' then some rest else none
  | _ => none

/-- `\[([^\]]+)\](`: a markdown link opener, returning the link text and the
    remainder after `(`.  The greedy `[^\]]+` is deterministic: the matched
    run is exactly the characters up to the first `]`. -/
def matchLink : List Char → Option (String × List Char)
  | '[' :: rest =>
    let inner := rest.takeWhile (· ≠ ']')
    match rest.drop inner.length, inner with
    | ']' :: '(' :: rest2, _ :: _ => some (String.mk inner, rest2)
    | _, _ => none
  | _ => none

/-- The regex tail after a `[-*]` bullet: `\s*(?:\[[ x]\]\s*)?\[([^\]]+)\](`.
    The optional checkbox group is tried greedily first; if the link fails
    after it, the engine backtracks and retries the link at the position
    right after the first `\s*` (further backtracking into `\s*` is
    unproductive: a shorter whitespace run leaves a whitespace character
    where `[` is required). -/
def linkTitleAt (cs : List Char) : Option (String × List Char) :=
  let p1 := skipWs cs
  match matchCheckbox p1 with
  | some p2 =>
    match matchLink (skipWs p2) with
    | some r => some r
    | none => matchLink p1
  | none => matchLink p1

/-- `re.finditer` loop for the list-item-link pattern, on fuel.  Each match
    consumes at least the bullet character, so `fuel = cs.length` never runs
    out before the scan finishes. -/
def listLinkGo : Nat → List Char → List String
  | 0, _ => []
  | _ + 1, [] => []
  | fuel + 1, c :: rest =>
    if c = '-' ∨ c = '*' then
      match linkTitleAt rest with
      | some (t, rest') => t :: listLinkGo fuel rest'
      | none => listLinkGo fuel rest
    else listLinkGo fuel rest

/-- All `group(1)` captures of the list-item-link pattern, in match order. -/
def listLinkRawTitles (text : String) : List String :=
  listLinkGo text.toList.length text.toList

/-- The `group(1).strip().lower()` candidate of one line for the heading
    pattern `^#{2,4}\s+(.+)$`, when the line matches.  A line whose
    remainder after the `#` run is all whitespace can only produce the empty
    stripped title, which every caller discards; it is folded into `none`
    here. -/
def headingCandidate (line : String) : Option String :=
  let n := (line.toList.takeWhile (· = '#')).length
  if 2 ≤ n ∧ n ≤ 4 then
    let rest := line.toList.drop n
    match rest with
    | c :: _ =>
      if c.isWhitespace ∧ trimStr (String.mk rest) ≠ "" then
        some (lowerStr (trimStr (String.mk rest)))
      else none
    | [] => none
  else none

/-- Every `group(1).strip().lower()` candidate produced by the two patterns
    over the text (before the length filter). -/
def titleCandidates (text : String) : List String :=
  (listLinkRawTitles text).map (fun s => lowerStr (trimStr s)) ++
    (linesOf text).filterMap headingCandidate

/-- `extract_titles_from_text(text)` from `lib/vault_v2.py` (the body of
    `extract_titles_from_file` in `daily-research/scripts/lib/vault.py` is
    the same logic per file): the set of candidates longer than 10
    characters (`if len(title) > 10`). -/
def extract_titles_from_text (text : String) : Finset String :=
  ((titleCandidates text).filter (fun t => 10 < t.length)).toFinset

end Vault

namespace Run

/-- X engagement as carried by scored X items (`item.engagement.likes`). -/
structure XEng where
  likes : Option Int
  reposts : Option Int
  replies : Option Int
  quotes : Option Int
deriving DecidableEq, Repr

/-- Reddit engagement (`item.engagement.score`, `num_comments`). -/
structure REng where
  score : Option Int
  num_comments : Option Int
deriving DecidableEq, Repr

/-- A scored X item as manipulated by `apply_quality_filters` (`category`
    models the `_category` attribute attached by the classify pass). -/
structure XItem where
  text : String
  url : String
  author_handle : String
  engagement : Option XEng
  score : Int
  category : String
deriving DecidableEq, Repr

/-- A scored Reddit item as manipulated by `apply_quality_filters`. -/
structure RItem where
  title : String
  url : String
  subreddit : String
  engagement : Option REng
  score : Int
  category : String
deriving DecidableEq, Repr

/-- One entry of `claim_link_mismatch_patterns`. -/
structure SpamPattern where
  claim_regex : String
  link_must_contain : List String
deriving DecidableEq, Repr

/-- The `spam_detection` sub-config (`enabled` defaults to `False`). -/
structure SpamConfig where
  enabled : Bool
  claim_link_mismatch_patterns : List SpamPattern
  low_effort_patterns : List String
deriving DecidableEq, Repr

/-- The `quality_filters` config after the `.get(key, default)` reads done
    by `run.py` (`none` sub-configs model missing/empty dicts; numeric
    fields carry the defaulted values: floors and bonuses default `0`,
    `long_form_min_chars` defaults `400`). -/
structure QFConfig where
  spam_detection : Option SpamConfig
  reddit_score_floor : Int
  x_likes_floor : Int
  long_form_bonus : Int
  long_form_min_chars : Nat
  article_domains : List String
  priority_x : List String
  priority_reddit_subreddits : List String
  priority_account_bonus : Int
  lab_accounts : List (String × List String)
deriving DecidableEq, Repr

/-- An abstract matcher standing for `re.search(pattern, text,
    re.IGNORECASE)` truthiness over the configured spam patterns. -/
abbrev Matcher := String → String → Bool

/-- The body of `_is_spam` after choosing the text field (`item.text` for X,
    `item.title` for Reddit): claim/link-mismatch patterns, then low-effort
    bait patterns.  A claim pattern fires only when the claim regex is
    non-empty and matches, the `link_must_contain` list is non-empty, and no
    listed domain occurs in the lowercased URL. -/
def isSpamCore (reSearch : Matcher) (cfg : Option QFConfig)
    (fieldText url : String) : Bool :=
  match cfg with
  | none => false
  | some qf =>
    match qf.spam_detection with
    | none => false
    | some sc =>
      if !sc.enabled then false
      else
        let text := lowerStr fieldText
        let urlL := lowerStr url
        (sc.claim_link_mismatch_patterns.any fun p =>
          let linkMust := p.link_must_contain.map lowerStr
          p.claim_regex ≠ "" && reSearch p.claim_regex text &&
            (linkMust ≠ [] && !(linkMust.any fun d => strContains urlL d))) ||
        sc.low_effort_patterns.any fun bait => reSearch bait text

/-- `_is_spam(item, config, "x")`. -/
def is_spam_x (reSearch : Matcher) (cfg : Option QFConfig) (i : XItem) : Bool :=
  isSpamCore reSearch cfg i.text i.url

/-- `_is_spam(item, config, "reddit")`. -/
def is_spam_reddit (reSearch : Matcher) (cfg : Option QFConfig) (i : RItem) : Bool :=
  isSpamCore reSearch cfg i.title i.url

/-- The flattened, lowercased set of lab handles. -/
def labHandles (qf : QFConfig) : List String :=
  ((qf.lab_accounts.map Prod.snd).flatten).map lowerStr

/-- Lowercased priority X handles. -/
def priorityX (qf : QFConfig) : List String :=
  qf.priority_x.map lowerStr

/-- Lowercased priority subreddits. -/
def prioritySubs (qf : QFConfig) : List String :=
  qf.priority_reddit_subreddits.map lowerStr

/-- Keep-predicate of the Reddit engagement floor (pass 1): unknown
    engagement or unknown score always survives; otherwise the score must
    reach the floor.  There is no author or subreddit bypass on this side. -/
def redditFloorKeep (qf : QFConfig) (i : RItem) : Bool :=
  match i.engagement with
  | none => true
  | some e =>
    match e.score with
    | none => true
    | some s => s ≥ qf.reddit_score_floor

/-- Keep-predicate of the X engagement floor (pass 1): lab accounts and
    priority accounts bypass the floor; unknown engagement or unknown likes
    always survives; otherwise likes must reach the floor. -/
def xFloorKeep (qf : QFConfig) (i : XItem) : Bool :=
  lowerStr i.author_handle ∈ labHandles qf ||
  lowerStr i.author_handle ∈ priorityX qf ||
  (match i.engagement with
   | none => true
   | some e =>
     match e.likes with
     | none => true
     | some l => l ≥ qf.x_likes_floor)

/-- Long-form bonus for an X item (pass 2). -/
def xLongFormBump (qf : QFConfig) (i : XItem) : XItem :=
  if i.text.length ≥ qf.long_form_min_chars then
    { i with score := min 100 (i.score + qf.long_form_bonus) }
  else i

/-- Long-form bonus for a Reddit item (pass 2): article-domain link or long
    title. -/
def rLongFormBump (qf : QFConfig) (i : RItem) : RItem :=
  let urlLower := lowerStr i.url
  let isArticle := (qf.article_domains.map lowerStr).any
    fun d => strContains urlLower d
  let isLongTitle := i.title.length > 100
  if isArticle || isLongTitle then
    { i with score := min 100 (i.score + qf.long_form_bonus) }
  else i

/-- Priority-account boost for an X item (pass 3). -/
def xPriorityBump (qf : QFConfig) (i : XItem) : XItem :=
  if lowerStr i.author_handle ∈ priorityX qf then
    { i with score := min 100 (i.score + qf.priority_account_bonus) }
  else i

/-- Priority-subreddit boost for a Reddit item (pass 3). -/
def rPriorityBump (qf : QFConfig) (i : RItem) : RItem :=
  if lowerStr i.subreddit ∈ prioritySubs qf then
    { i with score := min 100 (i.score + qf.priority_account_bonus) }
  else i

/-- `_classify_content(item, config, "x")`: lab pulse, else deep dive for
    long text, else general. -/
def classifyX (qf : QFConfig) (i : XItem) : String :=
  if lowerStr i.author_handle ∈ labHandles qf then "lab-pulse"
  else if i.text.length ≥ qf.long_form_min_chars then "deep-dive"
  else "general"

/-- `_classify_content(item, config, "reddit")`: deep dive for article
    domains or long titles, else general. -/
def classifyR (qf : QFConfig) (i : RItem) : String :=
  let urlLower := lowerStr i.url
  if (qf.article_domains.map lowerStr).any (fun d => strContains urlLower d) then
    "deep-dive"
  else if i.title.length > 100 then "deep-dive"
  else "general"

/-- A topic-scan result dict: `reddit_items`, `x_items`, `errors`. -/
structure ScanResult where
  reddit_items : List RItem
  x_items : List XItem
  errors : List String
deriving DecidableEq, Repr

/-- Pass 4 for one X item: attach `item._category`. -/
def xClassifySet (qf : QFConfig) (i : XItem) : XItem :=
  { i with category := classifyX qf i }

/-- Pass 4 for one Reddit item: attach `item._category`. -/
def rClassifySet (qf : QFConfig) (i : RItem) : RItem :=
  { i with category := classifyR qf i }

/-- The X-item pipeline of `apply_quality_filters`: spam rejection, the
    engagement floor (only when the floor is positive), the long-form bonus
    and the priority boost (each only when its bonus is positive), then
    classification.  In the source the passes are interleaved with the
    Reddit ones over the same `result` dict, but the two lists never
    interact, so the per-list pipeline is the same function. -/
def applyXPipeline (reSearch : Matcher) (qf : QFConfig) (l : List XItem) :
    List XItem :=
  let xs0 := l.filter fun i => !is_spam_x reSearch (some qf) i
  let xs1 := if qf.x_likes_floor > 0 then xs0.filter (xFloorKeep qf) else xs0
  let xs2 := if qf.long_form_bonus > 0 then xs1.map (xLongFormBump qf) else xs1
  let xs3 := if qf.priority_account_bonus > 0 then xs2.map (xPriorityBump qf)
    else xs2
  xs3.map (xClassifySet qf)

/-- The Reddit-item pipeline of `apply_quality_filters`.  Note: the Reddit
    engagement floor has no lab/priority bypass in the source. -/
def applyRPipeline (reSearch : Matcher) (qf : QFConfig) (l : List RItem) :
    List RItem :=
  let rs0 := l.filter fun i => !is_spam_reddit reSearch (some qf) i
  let rs1 := if qf.reddit_score_floor > 0 then rs0.filter (redditFloorKeep qf)
    else rs0
  let rs2 := if qf.long_form_bonus > 0 then rs1.map (rLongFormBump qf) else rs1
  let rs3 := if qf.priority_account_bonus > 0 then rs2.map (rPriorityBump qf)
    else rs2
  rs3.map (rClassifySet qf)

/-- `apply_quality_filters(result, config)`: five ordered passes over both
    item lists; an absent/empty `quality_filters` config returns the result
    unchanged; `errors` is untouched. -/
def apply_quality_filters (reSearch : Matcher) (cfg : Option QFConfig)
    (r : ScanResult) : ScanResult :=
  match cfg with
  | none => r
  | some qf =>
    { r with
      x_items := applyXPipeline reSearch qf r.x_items
      reddit_items := applyRPipeline reSearch qf r.reddit_items }

/-- The score re-bump that a second run of `apply_quality_filters` performs
    on an already-filtered item: the long-form bonus again, then the
    priority bonus again, each capped at 100; category and all other fields
    are untouched. -/
def xRebump (qf : QFConfig) (i : XItem) : XItem :=
  let i1 := if qf.long_form_bonus > 0 then xLongFormBump qf i else i
  if qf.priority_account_bonus > 0 then xPriorityBump qf i1 else i1

/-- Reddit counterpart of `xRebump`. -/
def rRebump (qf : QFConfig) (i : RItem) : RItem :=
  let i1 := if qf.long_form_bonus > 0 then rLongFormBump qf i else i
  if qf.priority_account_bonus > 0 then rPriorityBump qf i1 else i1

/-- Re-apply only the score bonuses to every item of a result (what a
    second run of `apply_quality_filters` amounts to). -/
def rebumpScores (cfg : Option QFConfig) (r : ScanResult) : ScanResult :=
  match cfg with
  | none => r
  | some qf =>
    { r with
      x_items := r.x_items.map (xRebump qf)
      reddit_items := r.reddit_items.map (rRebump qf) }

/-- `run_topic_scan`.  Each provider block (`search → parse → normalize →
    score → sort → dedupe`, all inside one `try:`) is abstracted as an
    input: `none` when the API key is absent (block skipped), `some (.ok l)`
    when the block produced `l`, `some (.error e)` when it raised `e`.  The
    function then applies the quality filters and the vault dedup exactly as
    the source does. -/
def run_topic_scan (reSearch : Matcher) (cfg : Option QFConfig)
    (slug : String) (redditScan : Option (Except String (List RItem)))
    (xScan : Option (Except String (List XItem)))
    (seen_urls : List String) (seen_titles : List String) : ScanResult :=
  let redditPart : List RItem × List String :=
    match redditScan with
    | none => ([], [])
    | some (Except.ok l) => (l, [])
    | some (Except.error e) => ([], ["Reddit/" ++ slug ++ ": " ++ e])
  let xPart : List XItem × List String :=
    match xScan with
    | none => ([], [])
    | some (Except.ok l) => (l, [])
    | some (Except.error e) => ([], ["X/" ++ slug ++ ": " ++ e])
  let r0 : ScanResult :=
    { reddit_items := redditPart.1, x_items := xPart.1,
      errors := redditPart.2 ++ xPart.2 }
  let r1 := apply_quality_filters reSearch cfg r0
  { r1 with
    reddit_items := r1.reddit_items.filter fun i =>
      !decide (i.url ∈ seen_urls) &&
        !Vault.title_is_seen i.title seen_titles (4 / 5),
    x_items := r1.x_items.filter fun i => !decide (i.url ∈ seen_urls) }

/-- The URLs a finished batch feeds back into the running seen set
    (`seen_urls.add(item.url)` over both lists). -/
def resultUrls (r : ScanResult) : List String :=
  r.reddit_items.map RItem.url ++ r.x_items.map XItem.url

/-- One topic batch of the main loop: its slug and the two abstracted
    provider outcomes. -/
structure BatchInput where
  slug : String
  redditScan : Option (Except String (List RItem))
  xScan : Option (Except String (List XItem))

/-- The topic loop of `main`: scan each batch in order against the current
    seen set, then add the kept URLs to the seen set before the next
    batch. -/
def runBatches (reSearch : Matcher) (cfg : Option QFConfig)
    (seen_titles : List String) :
    List String → List BatchInput → List ScanResult
  | _, [] => []
  | seen, b :: rest =>
    let r := run_topic_scan reSearch cfg b.slug b.redditScan b.xScan seen
      seen_titles
    r :: runBatches reSearch cfg seen_titles (seen ++ resultUrls r) rest

end Run


/-! ### Concrete fixtures used by witnesses and counterexamples -/

/-- A matcher under which no spam pattern fires. -/
def noMatch : Run.Matcher := fun _ _ => false

/-- A quality-filter config with only a long-form bonus of 10 enabled. -/
def qfBonus10 : Run.QFConfig :=
  { spam_detection := none
    reddit_score_floor := 0
    x_likes_floor := 0
    long_form_bonus := 10
    long_form_min_chars := 3
    article_domains := []
    priority_x := []
    priority_reddit_subreddits := []
    priority_account_bonus := 0
    lab_accounts := [] }

/-- A config with a Reddit score floor of 10, a priority subreddit and a
    lab account configured. -/
def qfRedditFloor10 : Run.QFConfig :=
  { spam_detection := none
    reddit_score_floor := 10
    x_likes_floor := 0
    long_form_bonus := 0
    long_form_min_chars := 400
    article_domains := []
    priority_x := []
    priority_reddit_subreddits := ["ml"]
    priority_account_bonus := 0
    lab_accounts := [("lab", ["alice"])] }

/-- An X item with score 95 and text long enough for the long-form bonus. -/
def xItem95 : Run.XItem :=
  { text := "long enough"
    url := "https://x.com/a/status/1"
    author_handle := "a"
    engagement := none
    score := 95
    category := "" }

/-- An X item with score 50 and text long enough for the long-form bonus
    (a second bonus application is visible: 50 to 60 to 70). -/
def xItem50 : Run.XItem :=
  { text := "long enough"
    url := "https://x.com/a/status/2"
    author_handle := "a"
    engagement := none
    score := 50
    category := "" }

/-- A zero X item, used as a `getD` fallback. -/
def xItemZero : Run.XItem :=
  { text := ""
    url := ""
    author_handle := ""
    engagement := none
    score := 0
    category := "" }

/-- A Reddit item in a priority subreddit whose known score 5 is below the
    floor of `qfRedditFloor10`. -/
def rItemLow : Run.RItem :=
  { title := "a nice title"
    url := "https://reddit.example/p/1"
    subreddit := "ml"
    engagement := some { score := some 5, num_comments := none }
    score := 50
    category := "" }

/-- A Reddit item whose known score 15 passes the floor of
    `qfRedditFloor10`. -/
def rItem15 : Run.RItem :=
  { title := "another item"
    url := "https://reddit.example/p/2"
    subreddit := "other"
    engagement := some { score := some 15, num_comments := none }
    score := 40
    category := "" }

/-- A zero Reddit item, used as a `getD` fallback. -/
def rItemZero : Run.RItem :=
  { title := ""
    url := ""
    subreddit := ""
    engagement := none
    score := 0
    category := "" }

/-- A batch whose X scan returns `xItem95` and whose Reddit scan is
    skipped. -/
def batchX95 : Run.BatchInput :=
  { slug := "t"
    redditScan := none
    xScan := some (Except.ok [xItem95]) }

/-! ## Theorems -/

namespace XaiX

theorem fixStep_fst_of_mem (citations anonUrls : List String) (st : FixState)
    (i : CleanItem) (h : i.url ∈ citations) :
    (fixStep citations anonUrls st i).1 = i := by
  rw [fixStep]
  rw [if_pos h]

theorem fixGo_map_fst_getD (citations anonUrls : List String) :
    ∀ (items : List CleanItem) (st : FixState) (k : Nat) (hk : k < items.length),
      (items.get ⟨k, hk⟩).url ∈ citations →
      ((fixGo citations anonUrls st items).map Prod.fst).getD k default =
        items.get ⟨k, hk⟩ := by
  intro items
  induction items with
  | nil => intro st k hk; exact absurd hk (by simp)
  | cons i rest ih =>
    intro st k hk hmem
    cases k with
    | zero =>
      simp only [List.get] at hmem
      simp [fixGo, fixStep_fst_of_mem citations anonUrls st i hmem]
    | succ n =>
      simp only [List.get] at hmem
      simp only [fixGo, List.map_cons, List.getD_cons_succ]
      exact ih _ n (by simpa using hk) hmem

end XaiX

/-- C2: every item whose claimed URL is exactly present in the citation URL
    list passed to `_fix_urls_from_citations` comes out of verification with
    its URL (indeed the whole item) unchanged. -/
theorem fix_urls_keeps_exact_citation_match (items : List XaiX.CleanItem)
    (citations : List String) (k : Nat) (hk : k < items.length)
    (hmem : (items.get ⟨k, hk⟩).url ∈ citations) :
    (XaiX.fix_urls_from_citations items citations).getD k default =
      items.get ⟨k, hk⟩ := by
  unfold XaiX.fix_urls_from_citations
  have hne : citations ≠ [] := by
    intro h; rw [h] at hmem; exact absurd hmem (List.not_mem_nil _)
  rw [if_neg hne]
  exact XaiX.fixGo_map_fst_getD citations _ items _ k hk hmem

/-- Witness for C2 at a concrete input. -/
theorem fix_urls_keeps_exact_citation_match_witness :
    (XaiX.fix_urls_from_citations
        [{ id := "X1", text := "", url := "https://x.com/bob/status/9",
           author_handle := "bob", date := none, is_reply := false,
           engagement := none, why_relevant := "", relevance := 1 }]
        ["https://x.com/bob/status/9"]).getD 0 default =
      { id := "X1", text := "", url := "https://x.com/bob/status/9",
        author_handle := "bob", date := none, is_reply := false,
        engagement := none, why_relevant := "", relevance := 1 } :=
  fix_urls_keeps_exact_citation_match _ _ 0 (by simp)
    (List.mem_singleton.mpr rfl)

namespace XaiX

/-! ### Pool-counting lemmas for the citation queues (claim C1) -/

theorem count_removeFirst_le (l : List String) (u v : String) :
    (removeFirst l u).count v ≤ l.count v := by
  induction l with
  | nil => simp [removeFirst]
  | cons x xs ih =>
    by_cases hx : x = u
    · simp only [removeFirst, if_pos hx, List.count_cons]
      omega
    · simp only [removeFirst, if_neg hx, List.count_cons]
      omega

theorem count_removeFirst_self (l : List String) (u : String) (h : u ∈ l) :
    (removeFirst l u).count u = l.count u - 1 := by
  induction l with
  | nil => cases h
  | cons x xs ih =>
    by_cases hx : x = u
    · subst hx
      rw [removeFirst, if_pos rfl, List.count_cons_self]
      omega
    · have hu : u ∈ xs := by
        rcases List.mem_cons.mp h with h1 | h1
        · exact absurd h1.symm hx
        · exact h1
      have hc : 1 ≤ xs.count u := List.one_le_count_iff.mpr hu
      have hbe : (x == u) = false := beq_eq_false_iff_ne.mpr hx
      rw [removeFirst, if_neg hx, List.count_cons, List.count_cons, ih hu, hbe]
      omega

theorem count_tail_le (l : List String) (v : String) :
    l.tail.count v ≤ l.count v := by
  cases l with
  | nil => simp
  | cons x xs =>
    simp only [List.tail_cons, List.count_cons]
    omega

theorem poolGet_poolUpdate_ne (ps : List (String × List String)) (h : String)
    (f : List String → List String) (h' : String) (hne : h' ≠ h) :
    poolGet (poolUpdate ps h f) h' = poolGet ps h' := by
  induction ps with
  | nil => rfl
  | cons e rest ih =>
    obtain ⟨k, l⟩ := e
    simp only [poolUpdate]
    by_cases he : k = h
    · rw [if_pos he]
      have hk : ¬(k = h') := fun hh => hne (he ▸ hh ▸ rfl)
      simp only [poolGet]
      rw [if_neg hk, if_neg hk, ih]
    · rw [if_neg he]
      simp only [poolGet]
      by_cases hk : k = h'
      · rw [if_pos hk, if_pos hk]
      · rw [if_neg hk, if_neg hk, ih]

theorem poolGet_poolUpdate_self (ps : List (String × List String)) (h : String)
    (f : List String → List String) (hf0 : f [] = []) :
    poolGet (poolUpdate ps h f) h = f (poolGet ps h) := by
  induction ps with
  | nil => simp [poolUpdate, poolGet, hf0]
  | cons e rest ih =>
    obtain ⟨k, l⟩ := e
    simp only [poolUpdate]
    by_cases he : k = h
    · rw [if_pos he]
      simp only [poolGet]
      rw [if_pos he, if_pos he]
    · rw [if_neg he]
      simp only [poolGet, if_neg he]
      rw [ih]

theorem count_poolGet_poolInsert (ps : List (String × List String))
    (h v h' u : String) :
    (poolGet (poolInsert ps h v) h').count u =
      (poolGet ps h').count u + (if h' = h ∧ v = u then 1 else 0) := by
  induction ps with
  | nil =>
    simp only [poolInsert, poolGet]
    by_cases hh : h = h'
    · rw [if_pos hh]
      subst hh
      simp only [poolGet, List.count_cons, List.count_nil]
      by_cases hv : v = u
      · simp [hv]
      · simp [hv]
    · rw [if_neg hh]
      have : ¬(h' = h ∧ v = u) := fun hc => hh hc.1.symm
      simp [poolGet, this]
  | cons e rest ih =>
    obtain ⟨k, l⟩ := e
    by_cases hk : k = h
    · simp only [poolInsert, if_pos hk, poolGet]
      by_cases hk' : k = h'
      · rw [if_pos hk', if_pos hk']
        have hh : h' = h := hk' ▸ hk
        simp only [List.count_append, List.count_cons, List.count_nil, hh]
        by_cases hv : v = u
        · simp [hv]
        · simp [hv]
      · rw [if_neg hk', if_neg hk']
        have : ¬(h' = h ∧ v = u) := fun hc => hk' (hk ▸ hc.1 ▸ rfl)
        simp [this]
    · simp only [poolInsert, if_neg hk, poolGet]
      by_cases hk' : k = h'
      · rw [if_pos hk', if_pos hk']
        have : ¬(h' = h ∧ v = u) := fun hc => hk (hk' ▸ hc.1 ▸ rfl)
        simp [this]
      · rw [if_neg hk', if_neg hk']
        exact ih

theorem initStep_count_le (ps : List (String × List String)) (v h u : String) :
    (poolGet (initStep ps v) h).count u ≤
      (poolGet ps h).count u + (if v = u then 1 else 0) := by
  unfold initStep
  rcases hv : handleOf v with _ | hd
  · dsimp only
    omega
  · dsimp only
    by_cases hi : lowerStr hd ≠ "i"
    · rw [if_pos hi, count_poolGet_poolInsert]
      by_cases hc : h = lowerStr hd ∧ v = u
      · rw [if_pos hc, if_pos hc.2]
      · rw [if_neg hc]
        omega
    · rw [if_neg hi]
      omega

theorem initStep_count_ne (ps : List (String × List String)) (v h u : String)
    (hh : (handleOf u).map lowerStr ≠ some h) :
    (poolGet (initStep ps v) h).count u = (poolGet ps h).count u := by
  unfold initStep
  rcases hv : handleOf v with _ | hd
  · dsimp only
  · dsimp only
    by_cases hi : lowerStr hd ≠ "i"
    · rw [if_pos hi, count_poolGet_poolInsert]
      have : ¬(h = lowerStr hd ∧ v = u) := by
        rintro ⟨h1, h2⟩
        subst h2
        rw [hv] at hh
        exact hh (by simp [Option.map, h1])
      rw [if_neg this]
      omega
    · rw [if_neg hi]

theorem foldl_initStep_count_le (cits : List String) :
    ∀ (ps : List (String × List String)) (h u : String),
      (poolGet (cits.foldl initStep ps) h).count u ≤
        (poolGet ps h).count u + cits.count u := by
  induction cits with
  | nil => intro ps h u; simp
  | cons v rest ih =>
    intro ps h u
    simp only [List.foldl_cons, List.count_cons, beq_iff_eq]
    have h1 := ih (initStep ps v) h u
    have h2 := initStep_count_le ps v h u
    omega

theorem foldl_initStep_count_ne (cits : List String) :
    ∀ (ps : List (String × List String)) (h u : String),
      (handleOf u).map lowerStr ≠ some h →
      (poolGet (cits.foldl initStep ps) h).count u = (poolGet ps h).count u := by
  induction cits with
  | nil => intro ps h u _; rfl
  | cons v rest ih =>
    intro ps h u hh
    simp only [List.foldl_cons]
    rw [ih _ h u hh, initStep_count_ne ps v h u hh]

theorem initPools_inv (citations : List String) (u a : String)
    (hhandle : (handleOf u).map lowerStr = some a)
    (hcount : citations.count u ≤ 1) :
    (∀ h, h ≠ a → (poolGet (initPools citations) h).count u = 0) ∧
      (poolGet (initPools citations) a).count u ≤ 1 := by
  constructor
  · intro h hh
    have hne : (handleOf u).map lowerStr ≠ some h := by
      rw [hhandle]
      exact fun hc => hh (Option.some_injective _ hc).symm
    rw [initPools, foldl_initStep_count_ne citations [] h u hne]
    simp [poolGet]
  · have := foldl_initStep_count_le citations [] a u
    rw [initPools]
    have hz : (poolGet ([] : List (String × List String)) a).count u = 0 := by
      simp [poolGet]
    omega

end XaiX

namespace XaiX

/-! ### Branch analysis of `fixStep` (claim C1) -/

theorem fixStep_exact (citations anonUrls : List String) (st : FixState)
    (i : CleanItem) (hmem : i.url ∈ citations) :
    fixStep citations anonUrls st i =
      (i, FixAction.exactKept,
        if normAuthor i.author_handle ≠ "" ∧
            i.url ∈ poolGet st.pools (normAuthor i.author_handle) then
          { st with pools :=
              (poolUpdate st.pools (normAuthor i.author_handle)
                (removeFirst · i.url)) }
        else st) := by
  rw [fixStep]
  rw [if_pos hmem]

theorem fixCase3_spec (anonUrls : List String) (st : FixState)
    (i : CleanItem) (author : String) :
    ((fixCase3 anonUrls st i author).2.1 ≠ FixAction.authorRepaired ∧
      (fixCase3 anonUrls st i author).2.2.pools = st.pools) ∨
    ((fixCase3 anonUrls st i author).2.1 = FixAction.authorRepaired ∧
      (fixCase3 anonUrls st i author).2.2.pools =
        poolUpdate st.pools author List.tail ∧
      ∃ tl, poolGet st.pools author =
        (fixCase3 anonUrls st i author).1.url :: tl) := by
  unfold fixCase3
  rcases hs : (if author ≠ "" then poolGet st.pools author else []) with _ | ⟨r, tl⟩
  · dsimp only
    by_cases hanon : anonUrls ≠ [] ∧ st.anonIdx < anonUrls.length
    · rw [if_pos hanon]
      left
      exact ⟨by simp, rfl⟩
    · rw [if_neg hanon]
      left
      exact ⟨by simp, rfl⟩
  · dsimp only
    right
    refine ⟨rfl, rfl, tl, ?_⟩
    by_cases ha : author ≠ ""
    · rw [if_pos ha] at hs
      exact hs
    · rw [if_neg ha] at hs
      cases hs

theorem fixStep_spec (citations anonUrls : List String) (st : FixState)
    (i : CleanItem) :
    ((fixStep citations anonUrls st i).2.1 ≠ FixAction.authorRepaired ∧
      ((fixStep citations anonUrls st i).2.2.pools = st.pools ∨
        (fixStep citations anonUrls st i).2.2.pools =
          poolUpdate st.pools (normAuthor i.author_handle)
            (removeFirst · i.url))) ∨
    ((fixStep citations anonUrls st i).2.1 = FixAction.authorRepaired ∧
      (fixStep citations anonUrls st i).2.2.pools =
        poolUpdate st.pools (normAuthor i.author_handle) List.tail ∧
      ∃ tl, poolGet st.pools (normAuthor i.author_handle) =
        (fixStep citations anonUrls st i).1.url :: tl) := by
  by_cases hmem : i.url ∈ citations
  · rw [fixStep_exact citations anonUrls st i hmem]
    left
    refine ⟨by simp, ?_⟩
    by_cases hc : normAuthor i.author_handle ≠ "" ∧
        i.url ∈ poolGet st.pools (normAuthor i.author_handle)
    · rw [if_pos hc]
      right
      rfl
    · rw [if_neg hc]
      left
      rfl
  · rw [fixStep]
    rw [if_neg hmem]
    rcases hh : handleOf i.url with _ | h
    · dsimp only
      rcases fixCase3_spec anonUrls st i (normAuthor i.author_handle) with
        ⟨ha, hb⟩ | hc
      · exact Or.inl ⟨ha, Or.inl hb⟩
      · exact Or.inr hc
    · dsimp only
      by_cases h2 : lowerStr h = normAuthor i.author_handle ∧
          normAuthor i.author_handle ≠ ""
      · rw [if_pos h2]
        left
        exact ⟨by simp, Or.inl rfl⟩
      · rw [if_neg h2]
        rcases fixCase3_spec anonUrls st i (normAuthor i.author_handle) with
          ⟨ha, hb⟩ | hc
        · exact Or.inl ⟨ha, Or.inl hb⟩
        · exact Or.inr hc

theorem fixStep_count_le (citations anonUrls : List String) (st : FixState)
    (i : CleanItem) (h u : String) :
    (poolGet (fixStep citations anonUrls st i).2.2.pools h).count u ≤
      (poolGet st.pools h).count u := by
  rcases fixStep_spec citations anonUrls st i with ⟨-, hp | hp⟩ | ⟨-, hp, -⟩
  · rw [hp]
  · rw [hp]
    by_cases hh : h = normAuthor i.author_handle
    · subst hh
      rw [poolGet_poolUpdate_self _ _ _ rfl]
      exact count_removeFirst_le _ _ _
    · rw [poolGet_poolUpdate_ne _ _ _ _ hh]
  · rw [hp]
    by_cases hh : h = normAuthor i.author_handle
    · subst hh
      rw [poolGet_poolUpdate_self _ _ _ rfl]
      exact count_tail_le _ _
    · rw [poolGet_poolUpdate_ne _ _ _ _ hh]

theorem fixStep_absent (citations anonUrls : List String) (st : FixState)
    (i : CleanItem) (u : String)
    (habs : ∀ h, (poolGet st.pools h).count u = 0) :
    (∀ h, (poolGet (fixStep citations anonUrls st i).2.2.pools h).count u = 0) ∧
      ((fixStep citations anonUrls st i).2.1 = FixAction.authorRepaired →
        (fixStep citations anonUrls st i).1.url ≠ u) := by
  constructor
  · intro h
    have h1 := fixStep_count_le citations anonUrls st i h u
    have h2 := habs h
    omega
  · intro hact hu
    rcases fixStep_spec citations anonUrls st i with ⟨hne, -⟩ | ⟨-, -, tl, hhead⟩
    · exact hne hact
    · have h1 := habs (normAuthor i.author_handle)
      rw [hhead, hu, List.count_cons_self] at h1
      omega

theorem fixStep_inv (citations anonUrls : List String) (st : FixState)
    (i : CleanItem) (u aLow : String)
    (h1 : ∀ h, h ≠ aLow → (poolGet st.pools h).count u = 0)
    (h2 : (poolGet st.pools aLow).count u ≤ 1) :
    (∀ h, h ≠ aLow →
        (poolGet (fixStep citations anonUrls st i).2.2.pools h).count u = 0) ∧
      (poolGet (fixStep citations anonUrls st i).2.2.pools aLow).count u ≤ 1 := by
  constructor
  · intro h hh
    have ha := fixStep_count_le citations anonUrls st i h u
    have hb := h1 h hh
    omega
  · have ha := fixStep_count_le citations anonUrls st i aLow u
    omega

theorem fixStateAfter_inv (citations anonUrls : List String) (u aLow : String) :
    ∀ (items : List CleanItem) (st : FixState),
      (∀ h, h ≠ aLow → (poolGet st.pools h).count u = 0) →
      (poolGet st.pools aLow).count u ≤ 1 →
      (∀ h, h ≠ aLow →
          (poolGet (fixStateAfter citations anonUrls st items).pools h).count u
            = 0) ∧
        (poolGet (fixStateAfter citations anonUrls st items).pools aLow).count u
          ≤ 1 := by
  intro items
  induction items with
  | nil => intro st h1 h2; exact ⟨h1, h2⟩
  | cons i rest ih =>
    intro st h1 h2
    have hs := fixStep_inv citations anonUrls st i u aLow h1 h2
    simp only [fixStateAfter]
    exact ih _ hs.1 hs.2

theorem fixGo_absent (citations anonUrls : List String) (u : String) :
    ∀ (items : List CleanItem) (st : FixState),
      (∀ h, (poolGet st.pools h).count u = 0) →
      ∀ p ∈ fixGo citations anonUrls st items,
        ¬(p.2 = FixAction.authorRepaired ∧ p.1.url = u) := by
  intro items
  induction items with
  | nil =>
    intro st _ p hp
    simp only [fixGo, List.not_mem_nil] at hp
  | cons i rest ih =>
    intro st habs p hp
    have hstep := fixStep_absent citations anonUrls st i u habs
    simp only [fixGo, List.mem_cons] at hp
    rcases hp with h0 | h0
    · rintro ⟨ha, hu⟩
      rw [h0] at ha hu
      exact hstep.2 ha hu
    · exact ih _ hstep.1 p h0

theorem fixGo_append (citations anonUrls : List String) :
    ∀ (l1 l2 : List CleanItem) (st : FixState),
      fixGo citations anonUrls st (l1 ++ l2) =
        fixGo citations anonUrls st l1 ++
          fixGo citations anonUrls (fixStateAfter citations anonUrls st l1) l2 := by
  intro l1
  induction l1 with
  | nil => intro l2 st; rfl
  | cons i rest ih =>
    intro l2 st
    simp only [List.cons_append, fixGo, fixStateAfter]
    exact congrArg _ (ih l2 _)

theorem fixGo_length (citations anonUrls : List String) :
    ∀ (items : List CleanItem) (st : FixState),
      (fixGo citations anonUrls st items).length = items.length := by
  intro items
  induction items with
  | nil => intro st; rfl
  | cons i rest ih =>
    intro st
    simp only [fixGo, List.length_cons, ih]

theorem fixStateAfter_append (citations anonUrls : List String) :
    ∀ (l1 l2 : List CleanItem) (st : FixState),
      fixStateAfter citations anonUrls st (l1 ++ l2) =
        fixStateAfter citations anonUrls
          (fixStateAfter citations anonUrls st l1) l2 := by
  intro l1
  induction l1 with
  | nil => intro l2 st; rfl
  | cons i rest ih =>
    intro l2 st
    simp only [List.cons_append, fixStateAfter]
    exact ih l2 _

theorem fixStep_exact_absent (citations anonUrls : List String) (st : FixState)
    (i : CleanItem) (aLow : String)
    (hmem : i.url ∈ citations)
    (hauth : normAuthor i.author_handle = aLow) (hane : aLow ≠ "")
    (h1 : ∀ h, h ≠ aLow → (poolGet st.pools h).count i.url = 0)
    (h2 : (poolGet st.pools aLow).count i.url ≤ 1) :
    ∀ h, (poolGet (fixStep citations anonUrls st i).2.2.pools h).count i.url
      = 0 := by
  intro h
  rw [fixStep_exact citations anonUrls st i hmem]
  dsimp only
  rw [hauth]
  by_cases hc : aLow ≠ "" ∧ i.url ∈ poolGet st.pools aLow
  · rw [if_pos hc]
    dsimp only
    by_cases hh : h = aLow
    · subst hh
      rw [poolGet_poolUpdate_self _ _ _ rfl, count_removeFirst_self _ _ hc.2]
      have := List.one_le_count_iff.mpr hc.2
      omega
    · rw [poolGet_poolUpdate_ne _ _ _ _ hh]
      exact h1 h hh
  · rw [if_neg hc]
    by_cases hh : h = aLow
    · rw [hh]
      have hnm : i.url ∉ poolGet st.pools aLow := fun hm => hc ⟨hane, hm⟩
      exact List.count_eq_zero.mpr hnm
    · exact h1 h hh

end XaiX

/-- C1 (amended): under a duplicate-free citation list, once an item carries
    a citation URL as an exact match and the URL's embedded (lowercased)
    handle equals the item's normalized claimed author, that URL is never
    substituted from the per-author queue into any item processed later in
    the same `_fix_urls_from_citations` call.  (The unamended claim is
    refuted by `fix_urls_reuse_counterexample`: an item repaired from the
    queue *before* the exact match, or served from the anonymous fallback
    pool, can still end up with the same URL.) -/
theorem fix_urls_author_queue_no_reuse_after_exact
    (citations : List String) (pre post : List XaiX.CleanItem)
    (it : XaiX.CleanItem) (a : String)
    (hnodup : citations.Nodup)
    (hmem : it.url ∈ citations)
    (hhandle : (XaiX.handleOf it.url).map lowerStr = some a)
    (hane : a ≠ "")
    (hauthor : XaiX.normAuthor it.author_handle = a) :
    ∀ p ∈ (XaiX.fixUrlsTagged (pre ++ it :: post) citations).drop
        (pre.length + 1),
      ¬(p.2 = XaiX.FixAction.authorRepaired ∧ p.1.url = it.url) := by
  intro p hp
  have hcount : citations.count it.url ≤ 1 :=
    List.nodup_iff_count_le_one.mp hnodup it.url
  have hinit := XaiX.initPools_inv citations it.url a hhandle hcount
  have hpre := XaiX.fixStateAfter_inv citations (XaiX.anonPool citations)
    it.url a pre ⟨XaiX.initPools citations, 0⟩ hinit.1 hinit.2
  have habs := XaiX.fixStep_exact_absent citations (XaiX.anonPool citations)
    (XaiX.fixStateAfter citations (XaiX.anonPool citations)
      ⟨XaiX.initPools citations, 0⟩ pre)
    it a hmem hauthor hane hpre.1 hpre.2
  have hsplit : XaiX.fixUrlsTagged (pre ++ it :: post) citations =
      XaiX.fixGo citations (XaiX.anonPool citations)
        ⟨XaiX.initPools citations, 0⟩ (pre ++ [it]) ++
        XaiX.fixGo citations (XaiX.anonPool citations)
          (XaiX.fixStateAfter citations (XaiX.anonPool citations)
            ⟨XaiX.initPools citations, 0⟩ (pre ++ [it])) post := by
    rw [XaiX.fixUrlsTagged,
      show pre ++ it :: post = (pre ++ [it]) ++ post by simp]
    exact XaiX.fixGo_append citations (XaiX.anonPool citations) (pre ++ [it])
      post ⟨XaiX.initPools citations, 0⟩
  rw [hsplit] at hp
  have hlen : pre.length + 1 =
      (XaiX.fixGo citations (XaiX.anonPool citations)
        ⟨XaiX.initPools citations, 0⟩ (pre ++ [it])).length := by
    rw [XaiX.fixGo_length]
    simp
  rw [hlen, List.drop_left] at hp
  have hafter : XaiX.fixStateAfter citations (XaiX.anonPool citations)
      ⟨XaiX.initPools citations, 0⟩ (pre ++ [it]) =
      (XaiX.fixStep citations (XaiX.anonPool citations)
        (XaiX.fixStateAfter citations (XaiX.anonPool citations)
          ⟨XaiX.initPools citations, 0⟩ pre) it).2.2 := by
    rw [XaiX.fixStateAfter_append]
    rfl
  rw [hafter] at hp
  exact XaiX.fixGo_absent citations (XaiX.anonPool citations) it.url post _
    habs p hp

/-- Witness for the amended C1 at a concrete input: after an item
    exact-matches bob's citation, a later bob item with a wrong URL is not
    repaired with it from the queue. -/
theorem fix_urls_author_queue_no_reuse_after_exact_witness :
    ¬(({ id := "X2", text := "", url := "https://x.com/alice/status/1",
          author_handle := "bob", date := none, is_reply := false,
          engagement := none, why_relevant := "", relevance := 1 :
          XaiX.CleanItem },
        XaiX.FixAction.unverified).2 = XaiX.FixAction.authorRepaired ∧
      ({ id := "X2", text := "", url := "https://x.com/alice/status/1",
          author_handle := "bob", date := none, is_reply := false,
          engagement := none, why_relevant := "", relevance := 1 :
          XaiX.CleanItem },
        XaiX.FixAction.unverified).1.url = "https://x.com/bob/status/9") :=
  fix_urls_author_queue_no_reuse_after_exact
    ["https://x.com/bob/status/9"] []
    [{ id := "X2", text := "", url := "https://x.com/alice/status/1",
       author_handle := "bob", date := none, is_reply := false,
       engagement := none, why_relevant := "", relevance := 1 }]
    { id := "X1", text := "", url := "https://x.com/bob/status/9",
      author_handle := "bob", date := none, is_reply := false,
      engagement := none, why_relevant := "", relevance := 1 }
    "bob" (by decide) (by decide) (by decide) (by decide) (by decide)
    _ (by
      have h : (XaiX.fixUrlsTagged
          (([] : List XaiX.CleanItem) ++
            ({ id := "X1", text := "", url := "https://x.com/bob/status/9",
               author_handle := "bob", date := none, is_reply := false,
               engagement := none, why_relevant := "", relevance := 1 :
               XaiX.CleanItem } ::
              [{ id := "X2", text := "",
                 url := "https://x.com/alice/status/1",
                 author_handle := "bob", date := none, is_reply := false,
                 engagement := none, why_relevant := "",
                 relevance := 1 }]))
          ["https://x.com/bob/status/9"]).drop
            ((List.length ([] : List XaiX.CleanItem)) + 1) =
          [({ id := "X2", text := "", url := "https://x.com/alice/status/1",
              author_handle := "bob", date := none, is_reply := false,
              engagement := none, why_relevant := "", relevance := 1 :
              XaiX.CleanItem },
            XaiX.FixAction.unverified)] := by decide
      rw [h]
      exact List.mem_singleton.mpr rfl)

/-- C1 (counterexample to the claim as stated): with citation list
    `[https://x.com/bob/status/9]`, a first bob item with a wrong URL is
    repaired from bob's queue to that URL, and a second item that carries
    exactly that URL is then accepted as an exact match — the same citation
    URL ends up assigned to two different items, one of which carries it as
    an exact match. -/
theorem fix_urls_reuse_counterexample :
    (XaiX.fixUrlsTagged
        [{ id := "X1", text := "", url := "https://x.com/alice/status/1",
           author_handle := "bob", date := none, is_reply := false,
           engagement := none, why_relevant := "", relevance := 1 },
         { id := "X2", text := "", url := "https://x.com/bob/status/9",
           author_handle := "bob", date := none, is_reply := false,
           engagement := none, why_relevant := "", relevance := 1 }]
        ["https://x.com/bob/status/9"]).map
        (fun p => (p.1.url, p.2)) =
      [("https://x.com/bob/status/9", XaiX.FixAction.authorRepaired),
       ("https://x.com/bob/status/9", XaiX.FixAction.exactKept)] := by
  decide

namespace Vault

theorem titleCandidates_lower (text t : String)
    (ht : t ∈ titleCandidates text) : ∃ s, t = lowerStr s := by
  rw [titleCandidates] at ht
  rcases List.mem_append.mp ht with h1 | h1
  · obtain ⟨s, -, hs⟩ := List.mem_map.mp h1
    exact ⟨trimStr s, hs.symm⟩
  · obtain ⟨line, -, hline⟩ := List.mem_filterMap.mp h1
    unfold headingCandidate at hline
    dsimp only at hline
    split at hline
    · split at hline
      · split at hline
        · exact ⟨_, (Option.some_injective _ hline).symm⟩
        · cases hline
      · cases hline
    · cases hline

end Vault

namespace Vault

/-- Bridge between the float comparison `|inter| / max(|A|,|B|) >= 0.8` of
    the source (exact rational here) and its multiplicative form. -/
theorem ratio_ge_iff (a m : ℕ) (hm : 0 < m) :
    ((a : ℚ) / (m : ℚ) ≥ 4/5) ↔ 4 * m ≤ 5 * a := by
  rw [ge_iff_le, le_div_iff₀ (by exact_mod_cast hm)]
  constructor
  · intro h
    have h5 : (4 * m : ℚ) ≤ 5 * a := by linarith
    exact_mod_cast h5
  · intro h
    have h5 : (4 * m : ℚ) ≤ (5 * a : ℚ) := by exact_mod_cast h
    linarith

end Vault

/-- C5 (amended): for every non-empty title `A` and seen-title list `S`,
    `title_is_seen A S 0.8` is true exactly when `A` has at least 3 distinct
    lowercased words and some `B ∈ S` has word-set overlap
    `|A ∩ B| / max(|A|, |B|) ≥ 0.8` (stated multiplicatively), or `A` has
    fewer than 3 words and `A`'s lowercase form is an exact member of `S`.
    (For `A = ""` the code short-circuits to `False` even when `"" ∈ S`;
    see `title_is_seen_empty_title_counterexample`.) -/
theorem title_is_seen_characterization (title : String) (seen : List String)
    (hne : title ≠ "") :
    Vault.title_is_seen title seen (4/5) = true ↔
      ((3 ≤ (Vault.wordSet (lowerStr title)).card ∧
          ∃ b ∈ seen,
            4 * max (Vault.wordSet (lowerStr title)).card
                (Vault.wordSet b).card ≤
              5 * ((Vault.wordSet (lowerStr title)) ∩
                (Vault.wordSet b)).card) ∨
        ((Vault.wordSet (lowerStr title)).card < 3 ∧
          lowerStr title ∈ seen)) := by
  unfold Vault.title_is_seen
  by_cases hs : seen = []
  · subst hs
    rw [if_pos (Or.inr rfl)]
    simp
  · rw [if_neg (by simp [hne, hs])]
    by_cases hcard : (Vault.wordSet (lowerStr title)).card < 3
    · rw [if_pos hcard]
      simp only [decide_eq_true_eq]
      constructor
      · intro hm
        exact Or.inr ⟨hcard, hm⟩
      · rintro (⟨h3, -⟩ | ⟨-, hm⟩)
        · omega
        · exact hm
    · rw [if_neg hcard]
      have h3 : 3 ≤ (Vault.wordSet (lowerStr title)).card := by omega
      rw [List.any_eq_true]
      constructor
      · rintro ⟨b, hb, hpred⟩
        refine Or.inl ⟨h3, b, hb, ?_⟩
        by_cases hempty : Vault.wordSet b = ∅
        · rw [if_pos hempty] at hpred
          cases hpred
        · rw [if_neg hempty, decide_eq_true_eq] at hpred
          have hm : 0 < max (Vault.wordSet (lowerStr title)).card
              (Vault.wordSet b).card := by
            have := le_max_left (Vault.wordSet (lowerStr title)).card
              (Vault.wordSet b).card
            omega
          rw [← Nat.cast_max] at hpred
          exact (Vault.ratio_ge_iff _ _ hm).mp hpred
      · rintro (⟨-, b, hb, hineq⟩ | ⟨hlt, -⟩)
        · refine ⟨b, hb, ?_⟩
          have hempty : Vault.wordSet b ≠ ∅ := by
            intro he
            simp only [he, Finset.inter_empty, Finset.card_empty,
              Nat.max_zero] at hineq
            omega
          rw [if_neg hempty, decide_eq_true_eq]
          have hm : 0 < max (Vault.wordSet (lowerStr title)).card
              (Vault.wordSet b).card := by
            have := le_max_left (Vault.wordSet (lowerStr title)).card
              (Vault.wordSet b).card
            omega
          rw [ge_iff_le, ← Nat.cast_max]
          rw [← ge_iff_le]
          exact (Vault.ratio_ge_iff _ _ hm).mpr hineq
        · omega

/-- Witness for C5 at a concrete input: a 3-word title identical to a seen
    title is flagged as seen. -/
theorem title_is_seen_characterization_witness :
    Vault.title_is_seen "alpha beta gamma" ["alpha beta gamma"] (4/5)
      = true :=
  (title_is_seen_characterization "alpha beta gamma" ["alpha beta gamma"]
    (by decide)).mpr
    (Or.inl ⟨by decide, "alpha beta gamma", by decide, by decide⟩)

/-- C5 (counterexample to the claim as stated): the empty title has fewer
    than 3 words and its lowercase form is a member of the seen set
    `{""}`, yet `title_is_seen` returns false (the `if not title` guard
    fires first). -/
theorem title_is_seen_empty_title_counterexample :
    Vault.title_is_seen "" [""] (4/5) = false ∧
      (Vault.wordSet (lowerStr "")).card < 3 ∧ lowerStr "" ∈ [""] := by
  refine ⟨by decide, by decide, by decide⟩

/-- C9 (amended): every title returned by `extract_titles_from_text` is a
    lowercased string of length strictly greater than 10, and every
    candidate (heading of depth 2–4, or list-item link text), lowercased and
    stripped, of length strictly greater than 10 is included.  (Candidates
    of length exactly 10 are discarded — `if len(title) > 10` — contrary to
    the claim's "at least 10"; see `extract_titles_boundary_counterexample`.) -/
theorem extract_titles_characterization (text : String) :
    (∀ t ∈ Vault.extract_titles_from_text text,
        (∃ s, t = lowerStr s) ∧ 10 < t.length) ∧
      (∀ t ∈ Vault.titleCandidates text,
        10 < t.length → t ∈ Vault.extract_titles_from_text text) := by
  constructor
  · intro t ht
    rw [Vault.extract_titles_from_text, List.mem_toFinset] at ht
    have h2 := List.mem_filter.mp ht
    refine ⟨Vault.titleCandidates_lower text t h2.1, by simpa using h2.2⟩
  · intro t ht hlen
    rw [Vault.extract_titles_from_text, List.mem_toFinset]
    exact List.mem_filter.mpr ⟨ht, by simpa using hlen⟩

/-- Witness for C9 at a concrete input: an eleven-character heading title is
    extracted. -/
theorem extract_titles_characterization_witness :
    "0123456789x" ∈ Vault.extract_titles_from_text "## 0123456789X" :=
  (extract_titles_characterization "## 0123456789X").2 "0123456789x"
    (by decide) (by decide)

/-- C9 (counterexample to the claim as stated): a heading title of length
    exactly 10 is a candidate but is discarded (`len > 10` fails), so the
    claim's "at least 10 characters … is included" is false on the code. -/
theorem extract_titles_boundary_counterexample :
    Vault.extract_titles_from_text "## 0123456789" = ∅ ∧
      "0123456789" ∈ Vault.titleCandidates "## 0123456789" ∧
      ("0123456789" : String).length = 10 := by
  refine ⟨by decide, by decide, by decide⟩

namespace XaiX

/-! ### Soundness and text-independence of `_extract_citation_urls` (C3) -/

theorem mem_filterMap_cons_of_mem {α β : Type} (f : α → Option β) (c : α)
    (rest : List α) (v : β) (h : v ∈ rest.filterMap f) :
    v ∈ (c :: rest).filterMap f := by
  obtain ⟨a, ha, hfa⟩ := List.mem_filterMap.mp h
  exact List.mem_filterMap.mpr ⟨a, List.mem_cons_of_mem _ ha, hfa⟩

theorem mem_addUrl (acc : List String) (u v : String)
    (h : v ∈ addUrl acc u) : v ∈ acc ∨ v = u := by
  unfold addUrl at h
  split at h
  · exact Or.inl h
  · rcases List.mem_append.mp h with h1 | h1
    · exact Or.inl h1
    · exact Or.inr (List.mem_singleton.mp h1)

theorem addCitations_sound :
    ∀ (cits : List CitEntry) (acc : List String) (v : String),
      v ∈ addCitations acc cits →
      v ∈ acc ∨ (strContains v "/status/" = true ∧
        v ∈ cits.filterMap citEntryUrl) := by
  intro cits
  induction cits with
  | nil => intro acc v h; exact Or.inl h
  | cons c rest ih =>
    intro acc v h
    cases c with
    | str s =>
      rcases ih _ v h with h1 | ⟨hc, hm⟩
      · by_cases hst : strContains s "/status/" = true
        · rw [addCitations] at h
          rcases (by
            by_cases hst2 : strContains s "/status/"
            · rw [if_pos hst2] at h1
              exact mem_addUrl acc s v h1
            · rw [if_neg hst2] at h1
              exact Or.inl h1 : v ∈ acc ∨ v = s) with h2 | h2
          · exact Or.inl h2
          · subst h2
            exact Or.inr ⟨hst, List.mem_filterMap.mpr
              ⟨CitEntry.str v, List.mem_cons_self _ _, rfl⟩⟩
        · rw [if_neg hst] at h1
          exact Or.inl h1
      · exact Or.inr ⟨hc, mem_filterMap_cons_of_mem _ _ _ _ hm⟩
    | obj u =>
      rcases ih _ v h with h1 | ⟨hc, hm⟩
      · by_cases hst : strContains u "/status/" = true
        · rcases (by
            rw [if_pos hst] at h1
            exact mem_addUrl acc u v h1 : v ∈ acc ∨ v = u) with h2 | h2
          · exact Or.inl h2
          · subst h2
            exact Or.inr ⟨hst, List.mem_filterMap.mpr
              ⟨CitEntry.obj v, List.mem_cons_self _ _, rfl⟩⟩
        · rw [if_neg hst] at h1
          exact Or.inl h1
      · exact Or.inr ⟨hc, mem_filterMap_cons_of_mem _ _ _ _ hm⟩
    | other =>
      rcases ih _ v h with h1 | ⟨hc, hm⟩
      · exact Or.inl h1
      · exact Or.inr ⟨hc, mem_filterMap_cons_of_mem _ _ _ _ hm⟩

end XaiX

namespace XaiX

theorem addAnnList_sound :
    ∀ (anns : List AnnEntry) (acc : List String) (v : String),
      v ∈ addAnnList acc anns →
      v ∈ acc ∨ (strContains v "/status/" = true ∧
        v ∈ anns.filterMap annEntryUrl) := by
  intro anns
  induction anns with
  | nil => intro acc v h; exact Or.inl h
  | cons a rest ih =>
    intro acc v h
    cases a with
    | dict d =>
      rcases ih _ v h with h1 | ⟨hc, hm⟩
      · by_cases hst : strContains d.url "/status/" = true
        · rcases (by
            rw [if_pos hst] at h1
            exact mem_addUrl acc d.url v h1 : v ∈ acc ∨ v = d.url) with h2 | h2
          · exact Or.inl h2
          · subst h2
            exact Or.inr ⟨hst, List.mem_filterMap.mpr
              ⟨AnnEntry.dict d, List.mem_cons_self _ _, rfl⟩⟩
        · rw [if_neg hst] at h1
          exact Or.inl h1
      · exact Or.inr ⟨hc, mem_filterMap_cons_of_mem _ _ _ _ hm⟩
    | other =>
      rcases ih _ v h with h1 | ⟨hc, hm⟩
      · exact Or.inl h1
      · exact Or.inr ⟨hc, mem_filterMap_cons_of_mem _ _ _ _ hm⟩

theorem addContentList_sound :
    ∀ (content : List ContentEntry) (acc : List String) (v : String),
      v ∈ addContentList acc content →
      v ∈ acc ∨ (strContains v "/status/" = true ∧
        v ∈ (content.map contentAnnUrls).flatten) := by
  intro content
  induction content with
  | nil => intro acc v h; exact Or.inl h
  | cons c rest ih =>
    intro acc v h
    cases c with
    | dict ctype t anns =>
      rcases ih _ v h with h1 | ⟨hc, hm⟩
      · rcases addAnnList_sound anns acc v h1 with h2 | ⟨hc, hm⟩
        · exact Or.inl h2
        · refine Or.inr ⟨hc, ?_⟩
          simp only [List.map_cons, List.flatten_cons, List.mem_append]
          exact Or.inl (by simpa [contentAnnUrls] using hm)
      · refine Or.inr ⟨hc, ?_⟩
        simp only [List.map_cons, List.flatten_cons, List.mem_append]
        exact Or.inr hm
    | other =>
      rcases ih _ v h with h1 | ⟨hc, hm⟩
      · exact Or.inl h1
      · refine Or.inr ⟨hc, ?_⟩
        simp only [List.map_cons, List.flatten_cons, List.mem_append]
        exact Or.inr hm

theorem addOutput_sound :
    ∀ (items : List OutEntry) (acc : List String) (v : String),
      v ∈ addOutput acc items →
      v ∈ acc ∨ (strContains v "/status/" = true ∧
        v ∈ (items.map outEntryAnnUrls).flatten) := by
  intro items
  induction items with
  | nil => intro acc v h; exact Or.inl h
  | cons e rest ih =>
    intro acc v h
    cases e with
    | dict otype content textField =>
      rcases ih _ v h with h1 | ⟨hc, hm⟩
      · by_cases hmsg : otype = "message"
        · rw [if_pos hmsg] at h1
          rcases addContentList_sound content acc v h1 with h2 | ⟨hc, hm⟩
          · exact Or.inl h2
          · refine Or.inr ⟨hc, ?_⟩
            simp only [List.map_cons, List.flatten_cons, List.mem_append]
            exact Or.inl (by
              simp only [outEntryAnnUrls, if_pos hmsg]
              exact hm)
        · rw [if_neg hmsg] at h1
          exact Or.inl h1
      · refine Or.inr ⟨hc, ?_⟩
        simp only [List.map_cons, List.flatten_cons, List.mem_append]
        exact Or.inr hm
    | str s =>
      rcases ih _ v h with h1 | ⟨hc, hm⟩
      · exact Or.inl h1
      · refine Or.inr ⟨hc, ?_⟩
        simp only [List.map_cons, List.flatten_cons, List.mem_append]
        exact Or.inr hm
    | other =>
      rcases ih _ v h with h1 | ⟨hc, hm⟩
      · exact Or.inl h1
      · refine Or.inr ⟨hc, ?_⟩
        simp only [List.map_cons, List.flatten_cons, List.mem_append]
        exact Or.inr hm

theorem addContentList_strip (content : List ContentEntry) :
    ∀ acc : List String,
      addContentList acc (content.map stripContentEntry) =
        addContentList acc content := by
  induction content with
  | nil => intro acc; rfl
  | cons c rest ih =>
    intro acc
    cases c with
    | dict ctype t anns =>
      simp only [List.map_cons, stripContentEntry, addContentList]
      exact ih _
    | other =>
      simp only [List.map_cons, stripContentEntry, addContentList]
      exact ih _

theorem addOutput_strip (items : List OutEntry) :
    ∀ acc : List String,
      addOutput acc (items.map stripOutEntry) = addOutput acc items := by
  induction items with
  | nil => intro acc; rfl
  | cons e rest ih =>
    intro acc
    cases e with
    | dict otype content textField =>
      simp only [List.map_cons, stripOutEntry, addOutput]
      rw [addContentList_strip, ih]
    | str s =>
      simp only [List.map_cons, stripOutEntry, addOutput]
      exact ih _
    | other =>
      simp only [List.map_cons, stripOutEntry, addOutput]
      exact ih _

theorem extract_citation_urls_strip (r : Resp) :
    extract_citation_urls (stripTexts r) = extract_citation_urls r := by
  unfold extract_citation_urls stripTexts
  cases hout : r.output with
  | list items =>
    dsimp only
    rw [addOutput_strip]
  | str s => dsimp only
  | missing => dsimp only
  | other => dsimp only

end XaiX

/-- C3 (amended): every URL returned by `_extract_citation_urls` contains
    `/status/` and occurs in the response's structured top-level citations
    list or in a dict annotation of a `message` output item — the
    annotation's `type` field is not inspected, so the URL need not come
    from a `url_citation` annotation (see
    `extract_citation_urls_type_field_counterexample`); and extraction is
    independent of the model's output text: responses that agree after
    erasing every output-text fragment yield the same citation list. -/
theorem extract_citation_urls_sound_and_text_independent :
    (∀ (r : XaiX.Resp) (u : String), u ∈ XaiX.extract_citation_urls r →
        strContains u "/status/" = true ∧
          (u ∈ XaiX.topCitationUrls r ∨ u ∈ XaiX.annotationUrls r)) ∧
      (∀ r1 r2 : XaiX.Resp, XaiX.stripTexts r1 = XaiX.stripTexts r2 →
        XaiX.extract_citation_urls r1 = XaiX.extract_citation_urls r2) := by
  constructor
  · intro r u hu
    unfold XaiX.extract_citation_urls at hu
    have hbase : ∀ v, v ∈ XaiX.addCitations [] r.citations →
        strContains v "/status/" = true ∧ v ∈ XaiX.topCitationUrls r := by
      intro v hv
      rcases XaiX.addCitations_sound r.citations [] v hv with h1 | ⟨hc, hm⟩
      · cases h1
      · exact ⟨hc, hm⟩
    cases hout : r.output with
    | list items =>
      rw [hout] at hu
      rcases XaiX.addOutput_sound items _ u hu with h1 | ⟨hc, hm⟩
      · obtain ⟨hc, hm⟩ := hbase u h1
        exact ⟨hc, Or.inl hm⟩
      · refine ⟨hc, Or.inr ?_⟩
        unfold XaiX.annotationUrls
        rw [hout]
        exact hm
    | str s =>
      rw [hout] at hu
      obtain ⟨hc, hm⟩ := hbase u hu
      exact ⟨hc, Or.inl hm⟩
    | missing =>
      rw [hout] at hu
      obtain ⟨hc, hm⟩ := hbase u hu
      exact ⟨hc, Or.inl hm⟩
    | other =>
      rw [hout] at hu
      obtain ⟨hc, hm⟩ := hbase u hu
      exact ⟨hc, Or.inl hm⟩
  · intro r1 r2 h
    rw [← XaiX.extract_citation_urls_strip r1,
      ← XaiX.extract_citation_urls_strip r2, h]

/-- Witness for C3 at a concrete input: a URL extracted from the top-level
    citations list contains `/status/` and indeed occurs there. -/
theorem extract_citation_urls_sound_and_text_independent_witness :
    strContains "https://x.com/a/status/5" "/status/" = true ∧
      ("https://x.com/a/status/5" ∈ XaiX.topCitationUrls
          { error := none, citations := [XaiX.CitEntry.str
              "https://x.com/a/status/5"],
            output := XaiX.OutputField.missing, choices := [] } ∨
        "https://x.com/a/status/5" ∈ XaiX.annotationUrls
          { error := none, citations := [XaiX.CitEntry.str
              "https://x.com/a/status/5"],
            output := XaiX.OutputField.missing, choices := [] }) :=
  extract_citation_urls_sound_and_text_independent.1
    { error := none,
      citations := [XaiX.CitEntry.str "https://x.com/a/status/5"],
      output := XaiX.OutputField.missing, choices := [] }
    "https://x.com/a/status/5" (by decide)

/-- C3 (counterexample to the claim as stated): an annotation whose `type`
    field is `"file_citation"` still has its URL extracted, although the URL
    occurs neither in the top-level citations list nor in any
    `url_citation`-typed annotation. -/
theorem extract_citation_urls_type_field_counterexample :
    XaiX.extract_citation_urls
        { error := none, citations := [],
          output := XaiX.OutputField.list
            [XaiX.OutEntry.dict "message"
              [XaiX.ContentEntry.dict "output_text" "some model text"
                [XaiX.AnnEntry.dict
                  { atype := "file_citation",
                    url := "https://x.com/a/status/1" }]]
              none],
          choices := [] } = ["https://x.com/a/status/1"] ∧
      XaiX.topCitationUrls
        { error := none, citations := [],
          output := XaiX.OutputField.list
            [XaiX.OutEntry.dict "message"
              [XaiX.ContentEntry.dict "output_text" "some model text"
                [XaiX.AnnEntry.dict
                  { atype := "file_citation",
                    url := "https://x.com/a/status/1" }]]
              none],
          choices := [] } = [] ∧
      XaiX.urlCitationAnnotationUrls
        { error := none, citations := [],
          output := XaiX.OutputField.list
            [XaiX.OutEntry.dict "message"
              [XaiX.ContentEntry.dict "output_text" "some model text"
                [XaiX.AnnEntry.dict
                  { atype := "file_citation",
                    url := "https://x.com/a/status/1" }]]
              none],
          choices := [] } = [] := by
  refine ⟨by decide, by decide, by decide⟩

namespace Run

/-! ### Score bounds through the bonus passes (C7) -/

theorem xLongFormBump_bound (qf : QFConfig) (i : XItem)
    (h : 0 ≤ i.score ∧ i.score ≤ 100) (hb : qf.long_form_bonus > 0) :
    0 ≤ (xLongFormBump qf i).score ∧ (xLongFormBump qf i).score ≤ 100 := by
  unfold xLongFormBump
  split
  · dsimp only
    exact ⟨le_min (by norm_num) (by omega), min_le_left _ _⟩
  · exact h

theorem xPriorityBump_bound (qf : QFConfig) (i : XItem)
    (h : 0 ≤ i.score ∧ i.score ≤ 100) (hb : qf.priority_account_bonus > 0) :
    0 ≤ (xPriorityBump qf i).score ∧ (xPriorityBump qf i).score ≤ 100 := by
  unfold xPriorityBump
  split
  · dsimp only
    exact ⟨le_min (by norm_num) (by omega), min_le_left _ _⟩
  · exact h

theorem rLongFormBump_bound (qf : QFConfig) (i : RItem)
    (h : 0 ≤ i.score ∧ i.score ≤ 100) (hb : qf.long_form_bonus > 0) :
    0 ≤ (rLongFormBump qf i).score ∧ (rLongFormBump qf i).score ≤ 100 := by
  unfold rLongFormBump
  dsimp only
  split
  · dsimp only
    exact ⟨le_min (by norm_num) (by omega), min_le_left _ _⟩
  · exact h

theorem rPriorityBump_bound (qf : QFConfig) (i : RItem)
    (h : 0 ≤ i.score ∧ i.score ≤ 100) (hb : qf.priority_account_bonus > 0) :
    0 ≤ (rPriorityBump qf i).score ∧ (rPriorityBump qf i).score ≤ 100 := by
  unfold rPriorityBump
  split
  · dsimp only
    exact ⟨le_min (by norm_num) (by omega), min_le_left _ _⟩
  · exact h

theorem bound_ite_filter {α : Type} (P : α → Prop) (c : Prop) [Decidable c]
    (p : α → Bool) (l : List α) (hl : ∀ i ∈ l, P i) :
    ∀ i ∈ (if c then l.filter p else l), P i := by
  split
  · exact fun i hi => hl i (List.mem_of_mem_filter hi)
  · exact hl

theorem bound_ite_map {α : Type} (P : α → Prop) (c : Prop) [Decidable c]
    (f : α → α) (l : List α) (hf : c → ∀ i, P i → P (f i))
    (hl : ∀ i ∈ l, P i) :
    ∀ i ∈ (if c then l.map f else l), P i := by
  by_cases hc : c
  · rw [if_pos hc]
    intro i hi
    obtain ⟨j, hj, rfl⟩ := List.mem_map.mp hi
    exact hf hc j (hl j hj)
  · rw [if_neg hc]
    exact hl

theorem applyXPipeline_bound (m : Matcher) (qf : QFConfig) (l : List XItem)
    (hl : ∀ i ∈ l, 0 ≤ i.score ∧ i.score ≤ 100) :
    ∀ i ∈ applyXPipeline m qf l, 0 ≤ i.score ∧ i.score ≤ 100 := by
  unfold applyXPipeline
  intro i hi
  obtain ⟨j, hj, rfl⟩ := List.mem_map.mp hi
  exact bound_ite_map (fun i : XItem => 0 ≤ i.score ∧ i.score ≤ 100) _ _ _
    (fun hc k hk => xPriorityBump_bound qf k hk hc)
    (bound_ite_map _ _ _ _
      (fun hc k hk => xLongFormBump_bound qf k hk hc)
      (bound_ite_filter _ _ _ _
        (fun k hk => hl k (List.mem_of_mem_filter hk))))
    j hj

theorem applyRPipeline_bound (m : Matcher) (qf : QFConfig) (l : List RItem)
    (hl : ∀ i ∈ l, 0 ≤ i.score ∧ i.score ≤ 100) :
    ∀ i ∈ applyRPipeline m qf l, 0 ≤ i.score ∧ i.score ≤ 100 := by
  unfold applyRPipeline
  intro i hi
  obtain ⟨j, hj, rfl⟩ := List.mem_map.mp hi
  exact bound_ite_map (fun i : RItem => 0 ≤ i.score ∧ i.score ≤ 100) _ _ _
    (fun hc k hk => rPriorityBump_bound qf k hk hc)
    (bound_ite_map _ _ _ _
      (fun hc k hk => rLongFormBump_bound qf k hk hc)
      (bound_ite_filter _ _ _ _
        (fun k hk => hl k (List.mem_of_mem_filter hk))))
    j hj

end Run

/-- C7: if every incoming item's score lies in `[0, 100]` (the scorer's
    range per the spec; the vendored scorer module is not part of the
    sources), then every item surviving `apply_quality_filters` still has
    `0 ≤ score ≤ 100`, no matter which of the long-form and priority bonus
    passes applied. -/
theorem apply_quality_filters_score_bound (m : Run.Matcher)
    (cfg : Option Run.QFConfig) (r : Run.ScanResult)
    (hx : ∀ i ∈ r.x_items, 0 ≤ i.score ∧ i.score ≤ 100)
    (hr : ∀ i ∈ r.reddit_items, 0 ≤ i.score ∧ i.score ≤ 100) :
    (∀ i ∈ (Run.apply_quality_filters m cfg r).x_items,
        0 ≤ i.score ∧ i.score ≤ 100) ∧
      (∀ i ∈ (Run.apply_quality_filters m cfg r).reddit_items,
        0 ≤ i.score ∧ i.score ≤ 100) := by
  cases cfg with
  | none => exact ⟨hx, hr⟩
  | some qf =>
    exact ⟨Run.applyXPipeline_bound m qf r.x_items hx,
      Run.applyRPipeline_bound m qf r.reddit_items hr⟩

/-- Witness for C7 at a concrete input: an item at score 95 receiving a
    10-point long-form bonus ends capped inside `[0, 100]`. -/
theorem apply_quality_filters_score_bound_witness :
    0 ≤ (((Run.apply_quality_filters noMatch (some qfBonus10)
          { reddit_items := [], x_items := [xItem95], errors := [] }).x_items).getD
          0 xItemZero).score ∧
      (((Run.apply_quality_filters noMatch (some qfBonus10)
          { reddit_items := [], x_items := [xItem95], errors := [] }).x_items).getD
          0 xItemZero).score ≤ 100 :=
  (apply_quality_filters_score_bound noMatch (some qfBonus10)
      { reddit_items := [], x_items := [xItem95], errors := [] }
      (by
        intro i hi
        rw [List.mem_singleton] at hi
        subst hi
        exact ⟨by norm_num [xItem95], by norm_num [xItem95]⟩)
      (by intro i hi; cases hi)).1 _ (by decide)

namespace Run

/-! ### Engagement floor (C8) -/

theorem rLongFormBump_engagement (qf : QFConfig) (i : RItem) :
    (rLongFormBump qf i).engagement = i.engagement := by
  unfold rLongFormBump
  dsimp only
  split <;> rfl

theorem rPriorityBump_engagement (qf : QFConfig) (i : RItem) :
    (rPriorityBump qf i).engagement = i.engagement := by
  unfold rPriorityBump
  split <;> rfl

theorem xFloorKeep_iff (qf : QFConfig) (i : XItem) :
    xFloorKeep qf i = true ↔
      (lowerStr i.author_handle ∈ labHandles qf ∨
        lowerStr i.author_handle ∈ priorityX qf ∨
        i.engagement = none ∨
        (∃ e, i.engagement = some e ∧ e.likes = none) ∨
        (∃ e l, i.engagement = some e ∧ e.likes = some l ∧
          qf.x_likes_floor ≤ l)) := by
  unfold xFloorKeep
  rcases heng : i.engagement with _ | e
  · constructor
    · intro _
      exact Or.inr (Or.inr (Or.inl rfl))
    · intro _
      simp
  · dsimp only
    rcases hl : e.likes with _ | l
    · constructor
      · intro _
        exact Or.inr (Or.inr (Or.inr (Or.inl ⟨e, rfl, hl⟩)))
      · intro _
        simp
    · constructor
      · intro h
        simp only [Bool.or_eq_true, decide_eq_true_eq] at h
        rcases h with (h | h) | h
        · exact Or.inl h
        · exact Or.inr (Or.inl h)
        · exact Or.inr (Or.inr (Or.inr (Or.inr ⟨e, l, rfl, hl, h⟩)))
      · rintro (h | h | h | ⟨e2, he2, hnone⟩ | ⟨e2, l2, he2, hsome, hle⟩)
        · simp [h]
        · simp [h]
        · cases h
        · obtain rfl : e = e2 := Option.some_inj.mp he2
          rw [hl] at hnone
          cases hnone
        · obtain rfl : e = e2 := Option.some_inj.mp he2
          rw [hl] at hsome
          obtain rfl : l = l2 := Option.some_inj.mp hsome
          simp [hle]

theorem redditFloorKeep_iff (qf : QFConfig) (i : RItem) :
    redditFloorKeep qf i = true ↔
      (i.engagement = none ∨
        (∃ e, i.engagement = some e ∧ e.score = none) ∨
        (∃ e s, i.engagement = some e ∧ e.score = some s ∧
          qf.reddit_score_floor ≤ s)) := by
  unfold redditFloorKeep
  rcases heng : i.engagement with _ | e
  · constructor
    · intro _
      exact Or.inl rfl
    · intro _
      rfl
  · dsimp only
    rcases hs : e.score with _ | sc
    · constructor
      · intro _
        exact Or.inr (Or.inl ⟨e, rfl, hs⟩)
      · intro _
        rfl
    · constructor
      · intro h
        simp only [decide_eq_true_eq] at h
        exact Or.inr (Or.inr ⟨e, sc, rfl, hs, h⟩)
      · rintro (h | ⟨e2, he2, hnone⟩ | ⟨e2, s2, he2, hsome, hle⟩)
        · cases h
        · obtain rfl : e = e2 := Option.some_inj.mp he2
          rw [hs] at hnone
          cases hnone
        · obtain rfl : e = e2 := Option.some_inj.mp he2
          rw [hs] at hsome
          obtain rfl : sc = s2 := Option.some_inj.mp hsome
          simp [hle]

theorem applyRPipeline_floor (m : Matcher) (qf : QFConfig) (l : List RItem)
    (hfloor : qf.reddit_score_floor > 0) :
    ∀ i ∈ applyRPipeline m qf l, ∀ e s, i.engagement = some e →
      e.score = some s → qf.reddit_score_floor ≤ s := by
  unfold applyRPipeline
  intro i hi e s heng hscore
  obtain ⟨j, hj, rfl⟩ := List.mem_map.mp hi
  have hengj : j.engagement = some e := heng
  -- peel the two bonus maps, which do not change engagement
  rw [if_pos hfloor] at hj
  have hkeep : ∀ k, k ∈ (if qf.priority_account_bonus > 0 then
      (if qf.long_form_bonus > 0 then
        ((l.filter fun i => !is_spam_reddit m (some qf) i).filter
          (redditFloorKeep qf)).map (rLongFormBump qf)
      else (l.filter fun i => !is_spam_reddit m (some qf) i).filter
        (redditFloorKeep qf)).map (rPriorityBump qf)
    else (if qf.long_form_bonus > 0 then
        ((l.filter fun i => !is_spam_reddit m (some qf) i).filter
          (redditFloorKeep qf)).map (rLongFormBump qf)
      else (l.filter fun i => !is_spam_reddit m (some qf) i).filter
        (redditFloorKeep qf))) →
      ∃ k0, redditFloorKeep qf k0 = true ∧ k.engagement = k0.engagement := by
    intro k hk
    by_cases hprio : qf.priority_account_bonus > 0
    · rw [if_pos hprio] at hk
      obtain ⟨k1, hk1, rfl⟩ := List.mem_map.mp hk
      by_cases hlong : qf.long_form_bonus > 0
      · rw [if_pos hlong] at hk1
        obtain ⟨k0, hk0, rfl⟩ := List.mem_map.mp hk1
        exact ⟨k0, (List.mem_filter.mp hk0).2, by
          rw [rPriorityBump_engagement, rLongFormBump_engagement]⟩
      · rw [if_neg hlong] at hk1
        exact ⟨k1, (List.mem_filter.mp hk1).2, by
          rw [rPriorityBump_engagement]⟩
    · rw [if_neg hprio] at hk
      by_cases hlong : qf.long_form_bonus > 0
      · rw [if_pos hlong] at hk
        obtain ⟨k0, hk0, rfl⟩ := List.mem_map.mp hk
        exact ⟨k0, (List.mem_filter.mp hk0).2, by
          rw [rLongFormBump_engagement]⟩
      · rw [if_neg hlong] at hk
        exact ⟨k, (List.mem_filter.mp hk).2, rfl⟩
  obtain ⟨k0, hkeep0, hengeq⟩ := hkeep j hj
  rw [hengj] at hengeq
  rcases (redditFloorKeep_iff qf k0).mp hkeep0 with h | ⟨e2, he2, hnone⟩ |
    ⟨e2, s2, he2, hsome, hle⟩
  · rw [h] at hengeq
    cases hengeq
  · rw [he2] at hengeq
    rw [Option.some_inj.mp hengeq.symm] at hnone
    rw [hscore] at hnone
    cases hnone
  · rw [he2] at hengeq
    rw [Option.some_inj.mp hengeq.symm] at hsome
    rw [hscore] at hsome
    rw [Option.some_inj.mp hsome]
    exact hle

end Run

/-- C8 (amended): in the engagement-floor pass of `apply_quality_filters`,
    an X item below the likes floor survives only when its author is in the
    configured lab-accounts or priority set (or its engagement/likes are
    unknown); a Reddit item has NO bypass — with a positive floor, every
    surviving Reddit item with a known score has score at least the floor,
    regardless of subreddit or any priority configuration; items with
    unknown engagement always survive on both sides.  (The claim's bypass
    for Reddit items is refuted by `reddit_floor_no_bypass_counterexample`.) -/
theorem engagement_floor_characterization :
    (∀ (qf : Run.QFConfig) (i : Run.XItem),
        Run.xFloorKeep qf i = true ↔
          (lowerStr i.author_handle ∈ Run.labHandles qf ∨
            lowerStr i.author_handle ∈ Run.priorityX qf ∨
            i.engagement = none ∨
            (∃ e, i.engagement = some e ∧ e.likes = none) ∨
            (∃ e l, i.engagement = some e ∧ e.likes = some l ∧
              qf.x_likes_floor ≤ l))) ∧
      (∀ (qf : Run.QFConfig) (i : Run.RItem),
        Run.redditFloorKeep qf i = true ↔
          (i.engagement = none ∨
            (∃ e, i.engagement = some e ∧ e.score = none) ∨
            (∃ e s, i.engagement = some e ∧ e.score = some s ∧
              qf.reddit_score_floor ≤ s))) ∧
      (∀ (m : Run.Matcher) (qf : Run.QFConfig) (r : Run.ScanResult),
        qf.reddit_score_floor > 0 →
        ∀ i ∈ (Run.apply_quality_filters m (some qf) r).reddit_items,
          ∀ e s, i.engagement = some e → e.score = some s →
            qf.reddit_score_floor ≤ s) :=
  ⟨Run.xFloorKeep_iff, Run.redditFloorKeep_iff,
    fun m qf r hfloor => Run.applyRPipeline_floor m qf r.reddit_items hfloor⟩

/-- Witness for C8 at a concrete input: with a positive Reddit floor, the
    surviving item's known score 15 is at least the floor 10. -/
theorem engagement_floor_characterization_witness :
    qfRedditFloor10.reddit_score_floor ≤ 15 :=
  engagement_floor_characterization.2.2 noMatch qfRedditFloor10
    { reddit_items := [rItem15], x_items := [], errors := [] }
    (by norm_num [qfRedditFloor10])
    ((Run.apply_quality_filters noMatch (some qfRedditFloor10)
        { reddit_items := [rItem15], x_items := [], errors := [] }).reddit_items.getD
      0 rItemZero)
    (by decide)
    { score := some 15, num_comments := none } 15 (by decide) rfl

/-- C8 (counterexample to the claim as stated): a Reddit item whose
    subreddit is in the configured priority set, with known engagement
    score 5 below the floor 10, is dropped — the Reddit floor has no
    priority/lab bypass. -/
theorem reddit_floor_no_bypass_counterexample :
    lowerStr rItemLow.subreddit ∈ Run.prioritySubs qfRedditFloor10 ∧
      (Run.apply_quality_filters noMatch (some qfRedditFloor10)
        { reddit_items := [rItemLow], x_items := [], errors := [] }).reddit_items
        = [] := by
  refine ⟨by decide, by decide⟩

namespace Run

/-! ### Second application of the quality filters (C6) -/

theorem xLongFormBump_core (qf : QFConfig) (i : XItem) :
    (xLongFormBump qf i).text = i.text ∧ (xLongFormBump qf i).url = i.url ∧
      (xLongFormBump qf i).author_handle = i.author_handle ∧
      (xLongFormBump qf i).engagement = i.engagement ∧
      (xLongFormBump qf i).category = i.category := by
  unfold xLongFormBump
  split <;> exact ⟨rfl, rfl, rfl, rfl, rfl⟩

theorem xPriorityBump_core (qf : QFConfig) (i : XItem) :
    (xPriorityBump qf i).text = i.text ∧ (xPriorityBump qf i).url = i.url ∧
      (xPriorityBump qf i).author_handle = i.author_handle ∧
      (xPriorityBump qf i).engagement = i.engagement ∧
      (xPriorityBump qf i).category = i.category := by
  unfold xPriorityBump
  split <;> exact ⟨rfl, rfl, rfl, rfl, rfl⟩

theorem xRebump_core (qf : QFConfig) (i : XItem) :
    (xRebump qf i).text = i.text ∧ (xRebump qf i).url = i.url ∧
      (xRebump qf i).author_handle = i.author_handle ∧
      (xRebump qf i).engagement = i.engagement ∧
      (xRebump qf i).category = i.category := by
  unfold xRebump
  dsimp only
  by_cases hl : qf.long_form_bonus > 0
  · rw [if_pos hl]
    by_cases hp : qf.priority_account_bonus > 0
    · rw [if_pos hp]
      obtain ⟨a1, a2, a3, a4, a5⟩ := xPriorityBump_core qf (xLongFormBump qf i)
      obtain ⟨b1, b2, b3, b4, b5⟩ := xLongFormBump_core qf i
      rw [a1, a2, a3, a4, a5, b1, b2, b3, b4, b5]
      exact ⟨rfl, rfl, rfl, rfl, rfl⟩
    · rw [if_neg hp]
      exact xLongFormBump_core qf i
  · rw [if_neg hl]
    by_cases hp : qf.priority_account_bonus > 0
    · rw [if_pos hp]
      exact xPriorityBump_core qf i
    · rw [if_neg hp]
      exact ⟨rfl, rfl, rfl, rfl, rfl⟩

theorem xSameCore (m : Matcher) (c : Option QFConfig) (qf : QFConfig)
    (i j : XItem) (ht : i.text = j.text) (hu : i.url = j.url)
    (ha : i.author_handle = j.author_handle)
    (he : i.engagement = j.engagement) :
    is_spam_x m c i = is_spam_x m c j ∧
      xFloorKeep qf i = xFloorKeep qf j ∧
      classifyX qf i = classifyX qf j := by
  refine ⟨?_, ?_, ?_⟩
  · show isSpamCore m c i.text i.url = isSpamCore m c j.text j.url
    rw [ht, hu]
  · unfold xFloorKeep
    rw [ha, he]
  · unfold classifyX
    rw [ha, ht]

theorem xClassifySet_same (m : Matcher) (c : Option QFConfig)
    (qf : QFConfig) (i : XItem) :
    is_spam_x m c (xClassifySet qf i) = is_spam_x m c i ∧
      xFloorKeep qf (xClassifySet qf i) = xFloorKeep qf i ∧
      classifyX qf (xClassifySet qf i) = classifyX qf i :=
  xSameCore m c qf _ i rfl rfl rfl rfl

theorem xLongFormBump_same (m : Matcher) (c : Option QFConfig)
    (qf : QFConfig) (i : XItem) :
    is_spam_x m c (xLongFormBump qf i) = is_spam_x m c i ∧
      xFloorKeep qf (xLongFormBump qf i) = xFloorKeep qf i ∧
      classifyX qf (xLongFormBump qf i) = classifyX qf i := by
  obtain ⟨h1, h2, h3, h4, -⟩ := xLongFormBump_core qf i
  exact xSameCore m c qf _ i h1 h2 h3 h4

theorem xPriorityBump_same (m : Matcher) (c : Option QFConfig)
    (qf : QFConfig) (i : XItem) :
    is_spam_x m c (xPriorityBump qf i) = is_spam_x m c i ∧
      xFloorKeep qf (xPriorityBump qf i) = xFloorKeep qf i ∧
      classifyX qf (xPriorityBump qf i) = classifyX qf i := by
  obtain ⟨h1, h2, h3, h4, -⟩ := xPriorityBump_core qf i
  exact xSameCore m c qf _ i h1 h2 h3 h4

theorem xRebump_same (m : Matcher) (c : Option QFConfig)
    (qf : QFConfig) (i : XItem) :
    is_spam_x m c (xRebump qf i) = is_spam_x m c i ∧
      xFloorKeep qf (xRebump qf i) = xFloorKeep qf i ∧
      classifyX qf (xRebump qf i) = classifyX qf i := by
  obtain ⟨h1, h2, h3, h4, -⟩ := xRebump_core qf i
  exact xSameCore m c qf _ i h1 h2 h3 h4

end Run

namespace Run

theorem rLongFormBump_core (qf : QFConfig) (i : RItem) :
    (rLongFormBump qf i).title = i.title ∧ (rLongFormBump qf i).url = i.url ∧
      (rLongFormBump qf i).subreddit = i.subreddit ∧
      (rLongFormBump qf i).engagement = i.engagement ∧
      (rLongFormBump qf i).category = i.category := by
  unfold rLongFormBump
  dsimp only
  split <;> exact ⟨rfl, rfl, rfl, rfl, rfl⟩

theorem rPriorityBump_core (qf : QFConfig) (i : RItem) :
    (rPriorityBump qf i).title = i.title ∧ (rPriorityBump qf i).url = i.url ∧
      (rPriorityBump qf i).subreddit = i.subreddit ∧
      (rPriorityBump qf i).engagement = i.engagement ∧
      (rPriorityBump qf i).category = i.category := by
  unfold rPriorityBump
  split <;> exact ⟨rfl, rfl, rfl, rfl, rfl⟩

theorem rRebump_core (qf : QFConfig) (i : RItem) :
    (rRebump qf i).title = i.title ∧ (rRebump qf i).url = i.url ∧
      (rRebump qf i).subreddit = i.subreddit ∧
      (rRebump qf i).engagement = i.engagement ∧
      (rRebump qf i).category = i.category := by
  unfold rRebump
  dsimp only
  by_cases hl : qf.long_form_bonus > 0
  · rw [if_pos hl]
    by_cases hp : qf.priority_account_bonus > 0
    · rw [if_pos hp]
      obtain ⟨a1, a2, a3, a4, a5⟩ := rPriorityBump_core qf (rLongFormBump qf i)
      obtain ⟨b1, b2, b3, b4, b5⟩ := rLongFormBump_core qf i
      rw [a1, a2, a3, a4, a5, b1, b2, b3, b4, b5]
      exact ⟨rfl, rfl, rfl, rfl, rfl⟩
    · rw [if_neg hp]
      exact rLongFormBump_core qf i
  · rw [if_neg hl]
    by_cases hp : qf.priority_account_bonus > 0
    · rw [if_pos hp]
      exact rPriorityBump_core qf i
    · rw [if_neg hp]
      exact ⟨rfl, rfl, rfl, rfl, rfl⟩

theorem rSameCore (m : Matcher) (c : Option QFConfig) (qf : QFConfig)
    (i j : RItem) (ht : i.title = j.title) (hu : i.url = j.url)
    (_hs : i.subreddit = j.subreddit) (he : i.engagement = j.engagement) :
    is_spam_reddit m c i = is_spam_reddit m c j ∧
      redditFloorKeep qf i = redditFloorKeep qf j ∧
      classifyR qf i = classifyR qf j := by
  refine ⟨?_, ?_, ?_⟩
  · show isSpamCore m c i.title i.url = isSpamCore m c j.title j.url
    rw [ht, hu]
  · unfold redditFloorKeep
    rw [he]
  · unfold classifyR
    rw [ht, hu]

theorem rClassifySet_same (m : Matcher) (c : Option QFConfig)
    (qf : QFConfig) (i : RItem) :
    is_spam_reddit m c (rClassifySet qf i) = is_spam_reddit m c i ∧
      redditFloorKeep qf (rClassifySet qf i) = redditFloorKeep qf i ∧
      classifyR qf (rClassifySet qf i) = classifyR qf i :=
  rSameCore m c qf _ i rfl rfl rfl rfl

theorem rLongFormBump_same (m : Matcher) (c : Option QFConfig)
    (qf : QFConfig) (i : RItem) :
    is_spam_reddit m c (rLongFormBump qf i) = is_spam_reddit m c i ∧
      redditFloorKeep qf (rLongFormBump qf i) = redditFloorKeep qf i ∧
      classifyR qf (rLongFormBump qf i) = classifyR qf i := by
  obtain ⟨h1, h2, h3, h4, -⟩ := rLongFormBump_core qf i
  exact rSameCore m c qf _ i h1 h2 h3 h4

theorem rPriorityBump_same (m : Matcher) (c : Option QFConfig)
    (qf : QFConfig) (i : RItem) :
    is_spam_reddit m c (rPriorityBump qf i) = is_spam_reddit m c i ∧
      redditFloorKeep qf (rPriorityBump qf i) = redditFloorKeep qf i ∧
      classifyR qf (rPriorityBump qf i) = classifyR qf i := by
  obtain ⟨h1, h2, h3, h4, -⟩ := rPriorityBump_core qf i
  exact rSameCore m c qf _ i h1 h2 h3 h4

theorem rRebump_same (m : Matcher) (c : Option QFConfig)
    (qf : QFConfig) (i : RItem) :
    is_spam_reddit m c (rRebump qf i) = is_spam_reddit m c i ∧
      redditFloorKeep qf (rRebump qf i) = redditFloorKeep qf i ∧
      classifyR qf (rRebump qf i) = classifyR qf i := by
  obtain ⟨h1, h2, h3, h4, -⟩ := rRebump_core qf i
  exact rSameCore m c qf _ i h1 h2 h3 h4

end Run

namespace Run

theorem applyXPipeline_formula (m : Matcher) (qf : QFConfig) (l : List XItem)
    (hspam : ∀ i ∈ l, is_spam_x m (some qf) i = false)
    (hfloor : qf.x_likes_floor > 0 → ∀ i ∈ l, xFloorKeep qf i = true) :
    applyXPipeline m qf l = l.map fun i => xClassifySet qf (xRebump qf i) := by
  unfold applyXPipeline
  dsimp only
  have h1 : (l.filter fun i => !is_spam_x m (some qf) i) = l :=
    List.filter_eq_self.mpr fun i hi => by rw [hspam i hi]; rfl
  rw [h1]
  have h2 : (if qf.x_likes_floor > 0 then l.filter (xFloorKeep qf) else l)
      = l := by
    by_cases hc : qf.x_likes_floor > 0
    · rw [if_pos hc]
      exact List.filter_eq_self.mpr (hfloor hc)
    · rw [if_neg hc]
  rw [h2]
  by_cases hl : qf.long_form_bonus > 0 <;>
    by_cases hp : qf.priority_account_bonus > 0
  · rw [if_pos hl, if_pos hp, List.map_map, List.map_map]
    refine List.map_congr_left fun a _ => ?_
    simp only [Function.comp_apply, xRebump, if_pos hl, if_pos hp]
  · rw [if_pos hl, if_neg hp, List.map_map]
    refine List.map_congr_left fun a _ => ?_
    simp only [Function.comp_apply, xRebump, if_pos hl, if_neg hp]
  · rw [if_neg hl, if_pos hp, List.map_map]
    refine List.map_congr_left fun a _ => ?_
    simp only [Function.comp_apply, xRebump, if_neg hl, if_pos hp]
  · rw [if_neg hl, if_neg hp]
    refine List.map_congr_left fun a _ => ?_
    simp only [xRebump, if_neg hl, if_neg hp]

theorem applyRPipeline_formula (m : Matcher) (qf : QFConfig) (l : List RItem)
    (hspam : ∀ i ∈ l, is_spam_reddit m (some qf) i = false)
    (hfloor : qf.reddit_score_floor > 0 →
      ∀ i ∈ l, redditFloorKeep qf i = true) :
    applyRPipeline m qf l = l.map fun i => rClassifySet qf (rRebump qf i) := by
  unfold applyRPipeline
  dsimp only
  have h1 : (l.filter fun i => !is_spam_reddit m (some qf) i) = l :=
    List.filter_eq_self.mpr fun i hi => by rw [hspam i hi]; rfl
  rw [h1]
  have h2 : (if qf.reddit_score_floor > 0 then l.filter (redditFloorKeep qf)
      else l) = l := by
    by_cases hc : qf.reddit_score_floor > 0
    · rw [if_pos hc]
      exact List.filter_eq_self.mpr (hfloor hc)
    · rw [if_neg hc]
  rw [h2]
  by_cases hl : qf.long_form_bonus > 0 <;>
    by_cases hp : qf.priority_account_bonus > 0
  · rw [if_pos hl, if_pos hp, List.map_map, List.map_map]
    refine List.map_congr_left fun a _ => ?_
    simp only [Function.comp_apply, rRebump, if_pos hl, if_pos hp]
  · rw [if_pos hl, if_neg hp, List.map_map]
    refine List.map_congr_left fun a _ => ?_
    simp only [Function.comp_apply, rRebump, if_pos hl, if_neg hp]
  · rw [if_neg hl, if_pos hp, List.map_map]
    refine List.map_congr_left fun a _ => ?_
    simp only [Function.comp_apply, rRebump, if_neg hl, if_pos hp]
  · rw [if_neg hl, if_neg hp]
    refine List.map_congr_left fun a _ => ?_
    simp only [rRebump, if_neg hl, if_neg hp]

end Run

namespace Run

theorem applyXPipeline_mem_spec (m : Matcher) (qf : QFConfig) (l : List XItem) :
    ∀ i ∈ applyXPipeline m qf l,
      is_spam_x m (some qf) i = false ∧
        (qf.x_likes_floor > 0 → xFloorKeep qf i = true) ∧
        i.category = classifyX qf i := by
  unfold applyXPipeline
  dsimp only
  intro i hi
  obtain ⟨j, hj, rfl⟩ := List.mem_map.mp hi
  have base : ∀ k ∈ (if qf.x_likes_floor > 0 then
      (l.filter fun i => !is_spam_x m (some qf) i).filter (xFloorKeep qf)
      else l.filter fun i => !is_spam_x m (some qf) i),
      is_spam_x m (some qf) k = false ∧
        (qf.x_likes_floor > 0 → xFloorKeep qf k = true) := by
    intro k hk
    by_cases hc : qf.x_likes_floor > 0
    · rw [if_pos hc] at hk
      have h2 := List.mem_filter.mp hk
      have h3 := List.mem_filter.mp h2.1
      exact ⟨by simpa using h3.2, fun _ => h2.2⟩
    · rw [if_neg hc] at hk
      have h3 := List.mem_filter.mp hk
      exact ⟨by simpa using h3.2, fun hcc => absurd hcc hc⟩
  have stage := bound_ite_map (fun k : XItem =>
      is_spam_x m (some qf) k = false ∧
        (qf.x_likes_floor > 0 → xFloorKeep qf k = true))
    (qf.priority_account_bonus > 0) (xPriorityBump qf) _
    (fun _ k hk => by
      obtain ⟨a, b, -⟩ := xPriorityBump_same m (some qf) qf k
      exact ⟨by rw [a]; exact hk.1, fun hc => by rw [b]; exact hk.2 hc⟩)
    (bound_ite_map _ (qf.long_form_bonus > 0) (xLongFormBump qf) _
      (fun _ k hk => by
        obtain ⟨a, b, -⟩ := xLongFormBump_same m (some qf) qf k
        exact ⟨by rw [a]; exact hk.1, fun hc => by rw [b]; exact hk.2 hc⟩)
      base)
  have hjp := stage j hj
  obtain ⟨hs1, hs2, hs3⟩ := xClassifySet_same m (some qf) qf j
  refine ⟨by rw [hs1]; exact hjp.1, fun hc => by rw [hs2]; exact hjp.2 hc, ?_⟩
  show (xClassifySet qf j).category = classifyX qf (xClassifySet qf j)
  rw [hs3]
  rfl

theorem applyRPipeline_mem_spec (m : Matcher) (qf : QFConfig) (l : List RItem) :
    ∀ i ∈ applyRPipeline m qf l,
      is_spam_reddit m (some qf) i = false ∧
        (qf.reddit_score_floor > 0 → redditFloorKeep qf i = true) ∧
        i.category = classifyR qf i := by
  unfold applyRPipeline
  dsimp only
  intro i hi
  obtain ⟨j, hj, rfl⟩ := List.mem_map.mp hi
  have base : ∀ k ∈ (if qf.reddit_score_floor > 0 then
      (l.filter fun i => !is_spam_reddit m (some qf) i).filter
        (redditFloorKeep qf)
      else l.filter fun i => !is_spam_reddit m (some qf) i),
      is_spam_reddit m (some qf) k = false ∧
        (qf.reddit_score_floor > 0 → redditFloorKeep qf k = true) := by
    intro k hk
    by_cases hc : qf.reddit_score_floor > 0
    · rw [if_pos hc] at hk
      have h2 := List.mem_filter.mp hk
      have h3 := List.mem_filter.mp h2.1
      exact ⟨by simpa using h3.2, fun _ => h2.2⟩
    · rw [if_neg hc] at hk
      have h3 := List.mem_filter.mp hk
      exact ⟨by simpa using h3.2, fun hcc => absurd hcc hc⟩
  have stage := bound_ite_map (fun k : RItem =>
      is_spam_reddit m (some qf) k = false ∧
        (qf.reddit_score_floor > 0 → redditFloorKeep qf k = true))
    (qf.priority_account_bonus > 0) (rPriorityBump qf) _
    (fun _ k hk => by
      obtain ⟨a, b, -⟩ := rPriorityBump_same m (some qf) qf k
      exact ⟨by rw [a]; exact hk.1, fun hc => by rw [b]; exact hk.2 hc⟩)
    (bound_ite_map _ (qf.long_form_bonus > 0) (rLongFormBump qf) _
      (fun _ k hk => by
        obtain ⟨a, b, -⟩ := rLongFormBump_same m (some qf) qf k
        exact ⟨by rw [a]; exact hk.1, fun hc => by rw [b]; exact hk.2 hc⟩)
      base)
  have hjp := stage j hj
  obtain ⟨hs1, hs2, hs3⟩ := rClassifySet_same m (some qf) qf j
  refine ⟨by rw [hs1]; exact hjp.1, fun hc => by rw [hs2]; exact hjp.2 hc, ?_⟩
  show (rClassifySet qf j).category = classifyR qf (rClassifySet qf j)
  rw [hs3]
  rfl

theorem applyXPipeline_twice (m : Matcher) (qf : QFConfig) (l : List XItem) :
    applyXPipeline m qf (applyXPipeline m qf l) =
      (applyXPipeline m qf l).map (xRebump qf) := by
  have hmem := applyXPipeline_mem_spec m qf l
  rw [applyXPipeline_formula m qf _ (fun i hi => (hmem i hi).1)
    (fun hc i hi => (hmem i hi).2.1 hc)]
  refine List.map_congr_left fun a ha => ?_
  have hcat : a.category = classifyX qf a := (hmem a ha).2.2
  obtain ⟨-, -, hcl⟩ := xRebump_same m (some qf) qf a
  have hbc : (xRebump qf a).category = a.category :=
    (xRebump_core qf a).2.2.2.2
  unfold xClassifySet
  rw [hcl, ← hcat, ← hbc]

theorem applyRPipeline_twice (m : Matcher) (qf : QFConfig) (l : List RItem) :
    applyRPipeline m qf (applyRPipeline m qf l) =
      (applyRPipeline m qf l).map (rRebump qf) := by
  have hmem := applyRPipeline_mem_spec m qf l
  rw [applyRPipeline_formula m qf _ (fun i hi => (hmem i hi).1)
    (fun hc i hi => (hmem i hi).2.1 hc)]
  refine List.map_congr_left fun a ha => ?_
  have hcat : a.category = classifyR qf a := (hmem a ha).2.2
  obtain ⟨-, -, hcl⟩ := rRebump_same m (some qf) qf a
  have hbc : (rRebump qf a).category = a.category :=
    (rRebump_core qf a).2.2.2.2
  unfold rClassifySet
  rw [hcl, ← hcat, ← hbc]

end Run

/-- C6 (amended): a second application of `apply_quality_filters` with the
    same config removes no further items and changes no category — it is
    exactly the re-application of the long-form and priority score bonuses
    (capped at 100) to every surviving item.  In particular the pipeline is
    NOT idempotent on scores: an eligible item below the cap is bumped
    again (see `apply_quality_filters_not_idempotent_counterexample`). -/
theorem apply_quality_filters_second_application (m : Run.Matcher)
    (cfg : Option Run.QFConfig) (r : Run.ScanResult) :
    Run.apply_quality_filters m cfg (Run.apply_quality_filters m cfg r) =
      Run.rebumpScores cfg (Run.apply_quality_filters m cfg r) := by
  cases cfg with
  | none => rfl
  | some qf =>
    unfold Run.apply_quality_filters Run.rebumpScores
    dsimp only
    rw [Run.applyXPipeline_twice, Run.applyRPipeline_twice]

/-- C6 (counterexample to the claim as stated): with a long-form bonus of
    10 and an eligible item at score 50, the first application yields 60 and
    the second 70 — `apply_quality_filters` is not idempotent. -/
theorem apply_quality_filters_not_idempotent_counterexample :
    Run.apply_quality_filters noMatch (some qfBonus10)
        (Run.apply_quality_filters noMatch (some qfBonus10)
          { reddit_items := [], x_items := [xItem50], errors := [] }) ≠
      Run.apply_quality_filters noMatch (some qfBonus10)
        { reddit_items := [], x_items := [xItem50], errors := [] } := by
  decide

namespace Run

/-! ### Vault dedup and the cross-batch seen set (C4, C10) -/

theorem run_topic_scan_fresh (m : Matcher) (cfg : Option QFConfig)
    (slug : String) (rs : Option (Except String (List RItem)))
    (xs : Option (Except String (List XItem))) (seen st : List String) :
    (∀ i ∈ (run_topic_scan m cfg slug rs xs seen st).reddit_items,
        i.url ∉ seen ∧ Vault.title_is_seen i.title st (4 / 5) = false) ∧
      ∀ i ∈ (run_topic_scan m cfg slug rs xs seen st).x_items,
        i.url ∉ seen := by
  unfold run_topic_scan
  dsimp only
  constructor
  · intro i hi
    have h := (List.mem_filter.mp hi).2
    simp only [Bool.and_eq_true, Bool.not_eq_true', decide_eq_false_iff_not]
      at h
    exact ⟨h.1, h.2⟩
  · intro i hi
    have h := (List.mem_filter.mp hi).2
    simp only [Bool.not_eq_true', decide_eq_false_iff_not] at h
    exact h

theorem run_topic_scan_urls_fresh (m : Matcher) (cfg : Option QFConfig)
    (slug : String) (rs : Option (Except String (List RItem)))
    (xs : Option (Except String (List XItem))) (seen st : List String) :
    ∀ u ∈ resultUrls (run_topic_scan m cfg slug rs xs seen st), u ∉ seen := by
  intro u hu
  rcases List.mem_append.mp hu with h | h
  · obtain ⟨i, hi, rfl⟩ := List.mem_map.mp h
    exact ((run_topic_scan_fresh m cfg slug rs xs seen st).1 i hi).1
  · obtain ⟨i, hi, rfl⟩ := List.mem_map.mp h
    exact (run_topic_scan_fresh m cfg slug rs xs seen st).2 i hi

theorem runBatches_length (m : Matcher) (cfg : Option QFConfig)
    (titles : List String) :
    ∀ (bs : List BatchInput) (seen : List String),
      (runBatches m cfg titles seen bs).length = bs.length := by
  intro bs
  induction bs with
  | nil => intro seen; rfl
  | cons b rest ih =>
    intro seen
    simp only [runBatches, List.length_cons, ih]

theorem runBatches_fresh (m : Matcher) (cfg : Option QFConfig)
    (titles : List String) :
    ∀ (bs : List BatchInput) (seen : List String) (k : Nat), k < bs.length →
      ∀ u ∈ resultUrls ((runBatches m cfg titles seen bs).getD k ⟨[], [], []⟩),
        u ∉ seen := by
  intro bs
  induction bs with
  | nil =>
    intro seen k hk
    exact absurd hk (by simp)
  | cons b rest ih =>
    intro seen k hk u hu
    cases k with
    | zero =>
      simp only [runBatches, List.getD_cons_zero] at hu
      exact run_topic_scan_urls_fresh m cfg b.slug b.redditScan b.xScan seen
        titles u hu
    | succ n =>
      simp only [runBatches, List.getD_cons_succ] at hu
      have h2 := ih _ n (by simpa using hk) u hu
      intro hmem
      exact h2 (List.mem_append.mpr (Or.inl hmem))

theorem runBatches_cross (m : Matcher) (cfg : Option QFConfig)
    (titles : List String) :
    ∀ (bs : List BatchInput) (seen : List String) (i j : Nat) (u : String),
      i < j → j < bs.length →
      u ∈ resultUrls ((runBatches m cfg titles seen bs).getD i ⟨[], [], []⟩) →
      u ∉ resultUrls ((runBatches m cfg titles seen bs).getD j ⟨[], [], []⟩) := by
  intro bs
  induction bs with
  | nil =>
    intro seen i j u hij hj
    exact absurd hj (by simp)
  | cons b rest ih =>
    intro seen i j u hij hj hu
    cases i with
    | zero =>
      simp only [runBatches, List.getD_cons_zero] at hu
      obtain ⟨j2, rfl⟩ : ∃ j2, j = j2 + 1 := ⟨j - 1, by omega⟩
      simp only [runBatches, List.getD_cons_succ]
      intro hu2
      have h2 := runBatches_fresh m cfg titles rest _ j2 (by simpa using hj)
        u hu2
      exact h2 (List.mem_append.mpr (Or.inr hu))
    | succ i2 =>
      obtain ⟨j2, rfl⟩ : ∃ j2, j = j2 + 1 := ⟨j - 1, by omega⟩
      simp only [runBatches, List.getD_cons_succ] at hu ⊢
      exact ih _ i2 j2 u (by omega) (by simpa using hj) hu

end Run

namespace Run

/-- The X pipeline sends the empty list to the empty list. -/
theorem applyXPipeline_nil (m : Matcher) (qf : QFConfig) :
    applyXPipeline m qf [] = [] := by
  simp [applyXPipeline]

end Run

/-- **C4** (cross-corpus exact-URL dedup): after the vault-dedup step of
    `run_topic_scan`, no surviving Reddit item has a URL in the seen-URL set
    or a title that fuzzy-matches a seen title at threshold 0.8, and no
    surviving X item has a URL in the seen-URL set; and in the main batch
    loop, which extends the seen set with every kept URL before the next
    batch, a URL kept by an earlier batch is never kept again by a later
    batch of the same run. -/
theorem vault_dedup_and_cross_batch_exclusion :
    (∀ (reSearch : Run.Matcher) (cfg : Option Run.QFConfig) (slug : String)
        (redditScan : Option (Except String (List Run.RItem)))
        (xScan : Option (Except String (List Run.XItem)))
        (seen_urls seen_titles : List String),
        (∀ i ∈ (Run.run_topic_scan reSearch cfg slug redditScan xScan
            seen_urls seen_titles).reddit_items,
          i.url ∉ seen_urls ∧
            Vault.title_is_seen i.title seen_titles (4 / 5) = false) ∧
          ∀ i ∈ (Run.run_topic_scan reSearch cfg slug redditScan xScan
              seen_urls seen_titles).x_items, i.url ∉ seen_urls) ∧
      ∀ (reSearch : Run.Matcher) (cfg : Option Run.QFConfig)
        (seen_titles : List String) (bs : List Run.BatchInput)
        (seen : List String) (i j : Nat) (u : String),
        i < j → j < bs.length →
        u ∈ Run.resultUrls
          ((Run.runBatches reSearch cfg seen_titles seen bs).getD i
            ⟨[], [], []⟩) →
        u ∉ Run.resultUrls
          ((Run.runBatches reSearch cfg seen_titles seen bs).getD j
            ⟨[], [], []⟩) :=
  ⟨fun m cfg slug rs xs su st => Run.run_topic_scan_fresh m cfg slug rs xs
      su st,
    fun m cfg st bs seen i j u => Run.runBatches_cross m cfg st bs seen i j u⟩

/-- Witness for C4: running two identical batches that each scan the same X
    item, the item's URL is kept by the first batch and is no longer present
    in the second batch's output. -/
theorem vault_dedup_and_cross_batch_exclusion_witness :
    "https://x.com/a/status/1" ∈ Run.resultUrls
        ((Run.runBatches noMatch none [] [] [batchX95, batchX95]).getD 0
          ⟨[], [], []⟩) ∧
      "https://x.com/a/status/1" ∉ Run.resultUrls
        ((Run.runBatches noMatch none [] [] [batchX95, batchX95]).getD 1
          ⟨[], [], []⟩) :=
  ⟨by decide,
    vault_dedup_and_cross_batch_exclusion.2 noMatch none [] [batchX95,
      batchX95] [] 0 1 "https://x.com/a/status/1" (by decide) (by decide)
      (by decide)⟩

/-- **C10** (batch-level failure isolation): `parse_x_response` on a
    response whose error field is truthy returns the empty item list; when
    the X scan of `run_topic_scan` raises while the Reddit scan succeeds,
    exactly one error string (`"X/{slug}: {e}"`) is recorded, the X item
    list stays empty, and the Reddit items are exactly those of the same
    call without the X source; and the batch loop produces one result per
    batch, so later batches still run. -/
theorem batch_failure_isolation :
    (∀ (jsonItems : String → List XaiX.RawEntry) (r : XaiX.Resp),
        XaiX.truthyErr r.error = true →
        XaiX.parse_x_response jsonItems r = []) ∧
      (∀ (reSearch : Run.Matcher) (cfg : Option Run.QFConfig)
          (slug e : String) (rl : List Run.RItem)
          (seen_urls seen_titles : List String),
        (Run.run_topic_scan reSearch cfg slug (some (Except.ok rl))
            (some (Except.error e)) seen_urls seen_titles).errors =
            ["X/" ++ slug ++ ": " ++ e] ∧
          (Run.run_topic_scan reSearch cfg slug (some (Except.ok rl))
            (some (Except.error e)) seen_urls seen_titles).x_items = [] ∧
          (Run.run_topic_scan reSearch cfg slug (some (Except.ok rl))
            (some (Except.error e)) seen_urls seen_titles).reddit_items =
            (Run.run_topic_scan reSearch cfg slug (some (Except.ok rl)) none
              seen_urls seen_titles).reddit_items) ∧
      ∀ (reSearch : Run.Matcher) (cfg : Option Run.QFConfig)
        (seen_titles seen : List String) (bs : List Run.BatchInput),
        (Run.runBatches reSearch cfg seen_titles seen bs).length =
          bs.length := by
  refine ⟨?_, ?_, ?_⟩
  · intro jsonItems r h
    unfold XaiX.parse_x_response
    rw [if_pos h]
  · intro m cfg slug e rl su st
    refine ⟨?_, ?_, ?_⟩
    · cases cfg <;> rfl
    · cases cfg with
      | none => rfl
      | some qf =>
        unfold Run.run_topic_scan
        dsimp only [Run.apply_quality_filters]
        rw [Run.applyXPipeline_nil]
        rfl
    · cases cfg <;> rfl
  · intro m cfg st seen bs
    exact Run.runBatches_length m cfg st bs seen

/-- Witness for C10: a response whose error field is the string "boom" is
    truthy and parses to the empty list. -/
theorem batch_failure_isolation_witness :
    XaiX.truthyErr (some (XaiX.ErrField.str "boom")) = true ∧
      XaiX.parse_x_response (fun _ => [])
        { error := some (XaiX.ErrField.str "boom")
          citations := []
          output := XaiX.OutputField.missing
          choices := [] } = [] :=
  ⟨by decide,
    batch_failure_isolation.1 (fun _ => [])
      { error := some (XaiX.ErrField.str "boom")
        citations := []
        output := XaiX.OutputField.missing
        choices := [] } (by decide)⟩
